import Mathlib

/-!
# pos-api: authentication and authorisation core

A shallow embedding of the Go sources `middleware/auth.go`, `utils/response.go`,
`handlers/auth_handler.go`, `models/user.go`, `config/config.go`, `utils/pagination.go`
and `routes/routes.go`, followed by theorems about them.

Conventions of the embedding

* A Go `string` is a Lean `String`; a Go `uint` is a `Nat` (no arithmetic is done on it).
* A Go `int` or `int64` is an `Int`; results of arithmetic are wrapped to 64 bits with
  `Go.int64`, and a division by zero is a run-time panic, modelled by `none`.
* Library functions (`strings.Split`, `strconv.Atoi`, the gin router groups) are embedded
  as far as the sources call them; the process environment, the query string and the
  engine are explicit arguments.
* A Go `map[string]T` is an association list read with `List.lookup`; writing a key
  puts the new binding in front, so the latest write is the one that is read.
* A Go `interface{}` value is a value of the sum type `Any`; a single-value type
  assertion `x.(T)` that fails is a run-time panic, modelled by the result `none`.
* `gin.Context` is a record of the request headers and body, the key/value bag, the JSON
  responses written so far and the abort flag.  `c.Next()` runs the rest of the
  handler chain; a middleware therefore receives that rest as the argument `next`.
* The process-wide variable `TokenBlacklist` and the per-request context are threaded
  explicitly through every handler as a `State`.
-/

namespace PosApi

/-! ## models/user.go -/

namespace models

/-- Go `type Role string`. -/
abbrev Role := String

/-- Go `RoleCashier Role = "cashier"`. -/
def RoleCashier : Role := "cashier"

/-- Go `RoleOwner Role = "owner"`. -/
def RoleOwner : Role := "owner"

/-- Go `type User struct`; times are seconds, `DeletedAt` is `none` for a live row. -/
structure User where
  ID : Nat
  Username : String
  Password : String
  Name : String
  Role : Role
  IsActive : Bool
  CreatedAt : Nat
  UpdatedAt : Nat
  DeletedAt : Option Nat
  deriving DecidableEq, Repr

end models

/-! ## handlers/auth_handler.go: payload types -/

namespace handlers

/-- Go `type LoginRequest struct`. -/
structure LoginRequest where
  Username : String
  Password : String
  deriving DecidableEq, Repr

/-- Go `type UserResponse struct`. -/
structure UserResponse where
  ID : Nat
  Username : String
  Name : String
  Role : models.Role
  deriving DecidableEq, Repr

/-- Go `type LoginResponse struct`. -/
structure LoginResponse where
  Token : String
  User : UserResponse
  deriving DecidableEq, Repr

end handlers

/-- The dynamically typed values (`interface{}`) that the embedded code stores in the
context bag or sends as response data. -/
inductive Any where
  | nil
  | uint (n : Nat)
  | string (s : String)
  | Role (r : models.Role)
  | LoginResponse (r : handlers.LoginResponse)
  deriving DecidableEq, Repr

/-! ## utils/response.go: the response envelope -/

namespace utils

/-- Go `type Response struct`; `Data` is `Any.nil` when the field is left out. -/
structure Response where
  Code : Nat
  Status : String
  Message : String
  Data : Any
  deriving DecidableEq, Repr

end utils

/-! ## The part of gin that the handlers use -/

namespace gin

/-- The request-scoped context: request headers, the raw request body, the `Keys` bag,
the `(status, body)` pairs written with `c.JSON` in order, and whether `c.Abort()` was called. -/
structure Context where
  Header : List (String × String)
  Body : String
  Keys : List (String × Any)
  Written : List (Nat × utils.Response)
  Aborted : Bool
  deriving DecidableEq, Repr

namespace Context

/-- Go `c.GetHeader(key)`: the value of the header, or the empty string. -/
def GetHeader (c : Context) (key : String) : String :=
  (c.Header.lookup key).getD ""

/-- Go `c.Get(key)`: the value stored under the key, if any. -/
def Get (c : Context) (key : String) : Option Any :=
  c.Keys.lookup key

/-- Go `c.Set(key, value)`. -/
def Set (c : Context) (key : String) (value : Any) : Context :=
  { c with Keys := (key, value) :: c.Keys }

/-- Go `c.JSON(code, obj)`: write a response. -/
def JSON (c : Context) (code : Nat) (obj : utils.Response) : Context :=
  { c with Written := c.Written ++ [(code, obj)] }

/-- Go `c.Abort()`: keep the pending handlers from running. -/
def Abort (c : Context) : Context :=
  { c with Aborted := true }

end Context

end gin

/-! ## go-playground/validator: what a failed binding reports -/

namespace validator

/-- A `validator.FieldError`, seen through `Field()`, `Tag()` and `Param()`. -/
structure FieldError where
  Field : String
  Tag : String
  Param : String
  deriving DecidableEq, Repr

/-- The error of `c.ShouldBindJSON`: either `validator.ValidationErrors` or any other
error (unreadable body, JSON of the wrong shape). -/
inductive BindError where
  | ValidationErrors (errs : List FieldError)
  | other (msg : String)
  deriving DecidableEq, Repr

end validator

/-! ## net/http status codes -/

namespace http

def StatusOK : Nat := 200
def StatusCreated : Nat := 201
def StatusBadRequest : Nat := 400
def StatusUnauthorized : Nat := 401
def StatusForbidden : Nat := 403
def StatusNotFound : Nat := 404
def StatusInternalServerError : Nat := 500

end http

/-! ## utils/response.go: the helpers -/

namespace utils

/-- Go `SuccessResponse`. -/
def SuccessResponse (c : gin.Context) (code : Nat) (message : String) (data : Any) :
    gin.Context :=
  c.JSON code { Code := code, Status := "success", Message := message, Data := data }

/-- Go `ErrorResponse`. -/
def ErrorResponse (c : gin.Context) (code : Nat) (message : String) : gin.Context :=
  c.JSON code { Code := code, Status := "failed", Message := message, Data := Any.nil }

/-- Go `OKResponse`. -/
def OKResponse (c : gin.Context) (message : String) (data : Any) : gin.Context :=
  SuccessResponse c http.StatusOK message data

/-- Go `CreatedResponse`. -/
def CreatedResponse (c : gin.Context) (message : String) (data : Any) : gin.Context :=
  SuccessResponse c http.StatusCreated message data

/-- Go `BadRequestResponse`. -/
def BadRequestResponse (c : gin.Context) (message : String) : gin.Context :=
  ErrorResponse c http.StatusBadRequest message

/-- Go `UnauthorizedResponse`. -/
def UnauthorizedResponse (c : gin.Context) (message : String) : gin.Context :=
  ErrorResponse c http.StatusUnauthorized message

/-- Go `ForbiddenResponse`. -/
def ForbiddenResponse (c : gin.Context) (message : String) : gin.Context :=
  ErrorResponse c http.StatusForbidden message

/-- Go `NotFoundResponse`. -/
def NotFoundResponse (c : gin.Context) (message : String) : gin.Context :=
  ErrorResponse c http.StatusNotFound message

/-- Go `InternalServerErrorResponse`. -/
def InternalServerErrorResponse (c : gin.Context) (message : String) : gin.Context :=
  ErrorResponse c http.StatusInternalServerError message

/-- Go `formatValidationError`.  The library function `strings.ToLower`, which maps every
Unicode letter to its lower case, is the argument `ToLower`. -/
def formatValidationError (ToLower : String → String) (e : validator.FieldError) : String :=
  let field := ToLower e.Field
  if e.Tag = "required" then field ++ " is required"
  else if e.Tag = "email" then field ++ " must be a valid email address"
  else if e.Tag = "min" then field ++ " must be at least " ++ e.Param ++ " characters"
  else if e.Tag = "max" then field ++ " must be at most " ++ e.Param ++ " characters"
  else if e.Tag = "gte" then field ++ " must be greater than or equal to " ++ e.Param
  else if e.Tag = "lte" then field ++ " must be less than or equal to " ++ e.Param
  else if e.Tag = "oneof" then field ++ " must be one of: " ++ e.Param
  else field ++ " is invalid"

/-- Go `ValidationErrorResponse`, with `strings.ToLower` as the argument `ToLower`. -/
def ValidationErrorResponse (ToLower : String → String) (c : gin.Context)
    (err : validator.BindError) : gin.Context :=
  match err with
  | validator.BindError.ValidationErrors validationErrors =>
    BadRequestResponse c
      (String.intercalate "; " (validationErrors.map (formatValidationError ToLower)))
  | validator.BindError.other _ => BadRequestResponse c "Invalid request body"

/-- The identity carried by a token, as `AuthMiddleware` reads it from `*Claims`. -/
structure Claims where
  UserID : Nat
  Username : String
  Role : models.Role
  deriving DecidableEq, Repr

/-- Go `JWTService` lives in `utils/jwt.go`, which is not among the sources; its two
methods are parameters of the development.  An `Except.error` is a non-nil Go `error`. -/
structure JWTService where
  ValidateToken : String → Except String Claims
  GenerateToken : models.User → Except String String

end utils

/-! ## strings.Split for a one-character separator -/

namespace strings

/-- The pieces of a character list between occurrences of `sep`. -/
def splitChars (sep : Char) : List Char → List (List Char)
  | [] => [[]]
  | ch :: rest =>
    if ch = sep then [] :: splitChars sep rest
    else
      match splitChars sep rest with
      | [] => [[ch]]
      | piece :: pieces => (ch :: piece) :: pieces

/-- Go `strings.Split(s, sep)` where `sep` is a single character: all substrings of `s`
between separators; a string without separator (also the empty one) gives `[s]`. -/
def Split (s : String) (sep : Char) : List String :=
  (splitChars sep s.data).map String.mk

end strings

/-! ## middleware/auth.go -/

namespace middleware

/-- The package variable `TokenBlacklist`: the map `tokens` (the lock is not modelled). -/
structure TokenBlacklist where
  tokens : List (String × Bool)
  deriving DecidableEq, Repr

/-- Go `TokenBlacklist.tokens[token]`: a missing key reads as `false`. -/
def TokenBlacklist.lookup (b : TokenBlacklist) (token : String) : Bool :=
  (b.tokens.lookup token).getD false

/-- What a handler sees and changes: the process-wide blacklist and the context. -/
structure State where
  TokenBlacklist : TokenBlacklist
  c : gin.Context
  deriving DecidableEq, Repr

/-- A handler maps a state to the state it leaves, or panics (`none`). -/
abbrev Handler := State → Option State

/-- The shape of all rejections: write the error response, then `c.Abort()`. -/
def rejectUnauthorized (s : State) (message : String) : State :=
  { s with c := (utils.UnauthorizedResponse s.c message).Abort }

/-- Go `AuthMiddleware(jwtService)`, with `next` standing for `c.Next()`. -/
def AuthMiddleware (jwtService : utils.JWTService) (next : Handler) : Handler := fun s =>
  let authHeader := s.c.GetHeader "Authorization"
  if authHeader = "" then
    some (rejectUnauthorized s "Authorization header is required")
  else
    let parts := strings.Split authHeader ' '
    if parts.length ≠ 2 ∨ parts.getD 0 "" ≠ "Bearer" then
      some (rejectUnauthorized s "Invalid authorization header format")
    else
      let tokenString := parts.getD 1 ""
      if s.TokenBlacklist.lookup tokenString then
        some (rejectUnauthorized s "Token has been invalidated")
      else
        match jwtService.ValidateToken tokenString with
        | Except.error _ => some (rejectUnauthorized s "Invalid or expired token")
        | Except.ok claims =>
          let c := s.c.Set "user_id" (Any.uint claims.UserID)
          let c := c.Set "username" (Any.string claims.Username)
          let c := c.Set "role" (Any.Role claims.Role)
          let c := c.Set "token" (Any.string tokenString)
          next { s with c := c }

/-- The `for _, role := range allowedRoles` loop of `RBACMiddleware` and what follows it. -/
def RBACMiddleware.range (userRole : models.Role) (next : Handler) (s : State) :
    List models.Role → Option State
  | [] =>
    some { s with c := (utils.ForbiddenResponse s.c
      "You don't have permission to access this resource").Abort }
  | role :: rest =>
    if userRole = role then next s
    else RBACMiddleware.range userRole next s rest

/-- Go `RBACMiddleware(allowedRoles...)`, with `next` standing for `c.Next()`. -/
def RBACMiddleware (allowedRoles : List models.Role) (next : Handler) : Handler := fun s =>
  match s.c.Get "role" with
  | none => some (rejectUnauthorized s "User role not found")
  | some roleValue =>
    match roleValue with
    | Any.Role userRole => RBACMiddleware.range userRole next s allowedRoles
    | _ => none

/-- Go `BlacklistToken(token)`. -/
def BlacklistToken (b : TokenBlacklist) (token : String) : TokenBlacklist :=
  { b with tokens := (token, true) :: b.tokens }

end middleware

/-! ## gorm: the `users` table and the one query `Login` makes -/

namespace gorm

/-- The database handle, reduced to the rows of the table `users`. -/
structure DB where
  users : List models.User
  deriving DecidableEq, Repr

/-- The row with the least primary key, as `ORDER BY id LIMIT 1` picks it. -/
def firstByID : List models.User → Option models.User
  | [] => none
  | u :: rest =>
    match firstByID rest with
    | none => some u
    | some v => if u.ID ≤ v.ID then some u else some v

/-- Go `db.Where("username = ? AND is_active = ?", username, isActive).First(&user)`:
rows that are soft-deleted are left out by gorm; no row is the error
`record not found`. -/
def DB.WhereUsernameIsActiveFirst (db : DB) (username : String) (isActive : Bool) :
    Except String models.User :=
  match firstByID (db.users.filter fun u =>
      u.Username = username ∧ u.IsActive = isActive ∧ u.DeletedAt = none) with
  | none => Except.error "record not found"
  | some user => Except.ok user

end gorm

/-! ## handlers/auth_handler.go -/

namespace handlers

open middleware

/-- Library calls of `Login` whose code is outside the repository: the JSON binding of
the request body to a `LoginRequest` (with its `required` validation),
`bcrypt.CompareHashAndPassword(hash, password)`, and `strings.ToLower`, which the
validation messages pass through. -/
structure Libraries where
  ShouldBindJSON : String → Except validator.BindError LoginRequest
  CompareHashAndPassword : String → String → Except String Unit
  ToLower : String → String

/-- Go `type AuthHandler struct`. -/
structure AuthHandler where
  DB : gorm.DB
  JWTService : utils.JWTService

/-- Go `NewAuthHandler`. -/
def NewAuthHandler (db : gorm.DB) (jwtService : utils.JWTService) : AuthHandler :=
  { DB := db, JWTService := jwtService }

/-- Go `(h *AuthHandler) Login`. -/
def AuthHandler.Login (lib : Libraries) (h : AuthHandler) : Handler := fun s =>
  match lib.ShouldBindJSON s.c.Body with
  | Except.error err =>
    some { s with c := utils.ValidationErrorResponse lib.ToLower s.c err }
  | Except.ok req =>
    match h.DB.WhereUsernameIsActiveFirst req.Username true with
    | Except.error _ =>
      some { s with c := utils.UnauthorizedResponse s.c "Invalid username or password" }
    | Except.ok user =>
      match lib.CompareHashAndPassword user.Password req.Password with
      | Except.error _ =>
        some { s with c := utils.UnauthorizedResponse s.c "Invalid username or password" }
      | Except.ok _ =>
        match h.JWTService.GenerateToken user with
        | Except.error _ =>
          some { s with c := utils.InternalServerErrorResponse s.c "Failed to generate token" }
        | Except.ok token =>
          let data : LoginResponse := {
            Token := token,
            User := {
              ID := user.ID,
              Username := user.Username,
              Name := user.Name,
              Role := user.Role } }
          some { s with c := utils.OKResponse s.c "Login successful" (Any.LoginResponse data) }

/-- Go `(h *AuthHandler) Logout`. -/
def AuthHandler.Logout (_h : AuthHandler) : Handler := fun s =>
  match s.c.Get "token" with
  | none => some { s with c := utils.BadRequestResponse s.c "Token not found" }
  | some token =>
    match token with
    | Any.string t =>
      some { TokenBlacklist := BlacklistToken s.TokenBlacklist t,
             c := utils.OKResponse s.c "Logout successful" Any.nil }
    | _ => none

end handlers

/-! ## Machine integers -/

namespace Go

/-- The value of a Go `int` or `int64` (64 bits, two's complement) that an arithmetic
result wraps to. -/
def int64 (x : Int) : Int :=
  (x + 2 ^ 63) % 2 ^ 64 - 2 ^ 63

/-- The value of a Go `uint64` that an arithmetic result wraps to. -/
def uint64 (x : Nat) : Nat :=
  x % 2 ^ 64

/-- Go integer division `a / b` on `int`: truncated towards zero and wrapped; a zero
divisor is a run-time panic (`none`). -/
def div (a b : Int) : Option Int :=
  if b = 0 then none else some (int64 (Int.tdiv a b))

/-- Go integer remainder `a % b` on `int`: the sign follows the dividend; a zero divisor
is a run-time panic (`none`). -/
def mod (a b : Int) : Option Int :=
  if b = 0 then none else some (Int.tmod a b)

/-- The Go builtin `len(s)` of a string: its length in bytes. -/
def len (s : String) : Nat :=
  s.utf8ByteSize

end Go

/-! ## strconv.Atoi, with the functions it is built from -/

namespace strconv

/-- `IntSize`: the size of an `int` in bits. -/
def IntSize : Nat := 64

/-- The two errors a `*NumError` can wrap. -/
inductive NumError where
  | ErrSyntax
  | ErrRange
  deriving DecidableEq, Repr

/-- The byte is one of `0` .. `9`. -/
def isDigit (c : Char) : Bool :=
  decide ('0' ≤ c) && decide (c ≤ '9')

/-- The loop of `ParseUint(s, 10, 64)` over the bytes of `s` with the value `n` read so
far: a byte that is no digit is a syntax error with value 0; a digit that takes the value
past `1<<64 - 1` is a range error with that maximum as value, returned at that digit,
before the bytes behind it are looked at. -/
def ParseUint.loop (n : Nat) : List Char → Nat × Option NumError
  | [] => (n, none)
  | c :: rest =>
    if isDigit c then
      let d := c.toNat - '0'.toNat
      if n ≥ (2 ^ 64 - 1) / 10 + 1 then (2 ^ 64 - 1, some NumError.ErrRange)
      else
        let n10 := Go.uint64 (n * 10)
        let n1 := Go.uint64 (n10 + d)
        if n1 < n10 ∨ n1 > 2 ^ 64 - 1 then (2 ^ 64 - 1, some NumError.ErrRange)
        else ParseUint.loop n1 rest
    else (0, some NumError.ErrSyntax)

/-- `ParseUint(s, 10, 64)`, the string given by its bytes. -/
def ParseUint (s : List Char) : Nat × Option NumError :=
  if s = [] then (0, some NumError.ErrSyntax)
  else ParseUint.loop 0 s

/-- `ParseInt(s, 10, 0)`, the string given by its bytes: one leading sign is picked off,
the rest goes through `ParseUint`; a syntax error gives 0, a magnitude out of the range
of `int64` gives the nearest bound together with a range error. -/
def ParseInt (s : List Char) : Int × Option NumError :=
  if s = [] then (0, some NumError.ErrSyntax)
  else
    let neg := s.head? = some '-'
    let s1 := if s.head? = some '+' ∨ s.head? = some '-' then s.tail else s
    let (un, err) := ParseUint s1
    if err = some NumError.ErrSyntax then (0, err)
    else
      let cutoff : Nat := 2 ^ (IntSize - 1)
      if ¬ neg ∧ un ≥ cutoff then ((cutoff : Int) - 1, some NumError.ErrRange)
      else if neg ∧ un > cutoff then (-(cutoff : Int), some NumError.ErrRange)
      else
        let n := Go.int64 (un : Int)
        (if neg then Go.int64 (-n) else n, none)

/-- The loop of the fast path of `Atoi`: no overflow check, a byte that is no digit is a
syntax error. -/
def Atoi.loop (n : Int) : List Char → Int × Option NumError
  | [] => (n, none)
  | ch :: rest =>
    if isDigit ch then Atoi.loop (Go.int64 (n * 10 + ((ch.toNat - '0'.toNat : Nat) : Int))) rest
    else (0, some NumError.ErrSyntax)

/-- `Atoi(s)`: strings of 1 to 18 bytes take the fast path, all others go through
`ParseInt(s, 10, 0)`.  The result is the pair `(value, err)`, with `none` for `nil`. -/
def Atoi (s : String) : Int × Option NumError :=
  let sLen := Go.len s
  if 0 < sLen ∧ sLen < 19 then
    let s1 := if s.data.head? = some '-' ∨ s.data.head? = some '+' then s.data.tail else s.data
    if s1.length < 1 then (0, some NumError.ErrSyntax)
    else
      let (n, err) := Atoi.loop 0 s1
      if err ≠ none then (0, err)
      else (if s.data.head? = some '-' then Go.int64 (-n) else n, none)
  else
    let (i64, err) := ParseInt s.data
    (Go.int64 i64, err)

end strconv

/-! ## os: the process environment -/

namespace os

/-- The environment of the process: variable names with their values. -/
abbrev Environ := List (String × String)

/-- `os.LookupEnv(key)`: the value, when the variable is set. -/
def LookupEnv (env : Environ) (key : String) : Option String :=
  env.lookup key

/-- `os.Getenv(key)`: the value, or the empty string when the variable is not set. -/
def Getenv (env : Environ) (key : String) : String :=
  (env.lookup key).getD ""

end os

/-! ## config/config.go -/

namespace config

/-- Go `type Config struct`. -/
structure Config where
  DBHost : String
  DBPort : String
  DBUser : String
  DBPassword : String
  DBName : String
  DBSSLMode : String
  JWTSecret : String
  JWTExpiry : Int
  ServerPort : String
  deriving DecidableEq, Repr

/-- Go `getEnv(key, defaultValue)`. -/
def getEnv (env : os.Environ) (key defaultValue : String) : String :=
  match os.LookupEnv env key with
  | some value => value
  | none => defaultValue

/-- Go `LoadConfig()`, reading the environment `env`; the error of `Atoi` is dropped. -/
def LoadConfig (env : os.Environ) : Except String Config :=
  let jwtExpiry := (strconv.Atoi (getEnv env "JWT_EXPIRY_HOURS" "24")).1
  let jwtSecret := os.Getenv env "JWT_SECRET"
  if jwtSecret = "" then
    Except.error "JWT_SECRET environment variable is required"
  else
    let dbPassword := os.Getenv env "DB_PASSWORD"
    if dbPassword = "" then
      Except.error "DB_PASSWORD environment variable is required"
    else
      let dbUser := os.Getenv env "DB_USER"
      if dbUser = "" then
        Except.error "DB_USER environment variable is required"
      else
        let dbHost := os.Getenv env "DB_HOST"
        if dbHost = "" then
          Except.error "DB_HOST environment variable is required"
        else
          let dbName := os.Getenv env "DB_NAME"
          if dbName = "" then
            Except.error "DB_NAME environment variable is required"
          else
            Except.ok {
              DBHost := dbHost,
              DBPort := getEnv env "DB_PORT" "5432",
              DBUser := dbUser,
              DBPassword := dbPassword,
              DBName := dbName,
              DBSSLMode := getEnv env "DB_SSL_MODE" "disable",
              JWTSecret := jwtSecret,
              JWTExpiry := jwtExpiry,
              ServerPort := getEnv env "SERVER_PORT" "8080" }

end config

/-! ## utils/pagination.go -/

namespace gin

/-- The query string of a request, one value for each key that occurs. -/
abbrev Query := List (String × String)

/-- `c.DefaultQuery(key, defaultValue)`: the value of the key in the query string, or
the default when the key does not occur. -/
def DefaultQuery (query : Query) (key defaultValue : String) : String :=
  match query.lookup key with
  | some value => value
  | none => defaultValue

end gin

namespace utils

/-- Go `type Pagination struct`. -/
structure Pagination where
  Page : Int
  Limit : Int
  deriving DecidableEq, Repr

/-- Go `GetPagination(c)`; of the context only the query string is read. -/
def GetPagination (query : gin.Query) : Pagination :=
  let (page, err) := strconv.Atoi (gin.DefaultQuery query "page" "1")
  let page := if err ≠ none ∨ page < 1 then 1 else page
  let (limit, err) := strconv.Atoi (gin.DefaultQuery query "limit" "10")
  let limit := if err ≠ none ∨ limit < 1 then 10 else limit
  let limit := if limit > 100 then 100 else limit
  { Page := page, Limit := limit }

/-- Go `(p Pagination) GetOffset()`. -/
def Pagination.GetOffset (p : Pagination) : Int :=
  Go.int64 (Go.int64 (p.Page - 1) * p.Limit)

/-- Go `CalculateTotalPages(totalItems, limit)`; `none` is a run-time panic. -/
def CalculateTotalPages (totalItems : Int) (limit : Int) : Option Int :=
  if limit ≤ 0 then some 0
  else
    match Go.div (Go.int64 totalItems) limit with
    | none => none
    | some pages =>
      match Go.mod (Go.int64 totalItems) limit with
      | none => none
      | some rest => some (if rest > 0 then Go.int64 (pages + 1) else pages)

end utils

/-! ## gin router groups and routes/routes.go -/

namespace gin

/-- The handler functions that stand in the chains of the route table, by name:
middleware that was installed on the engine before the routes are set up, the two
middleware constructors of `middleware/auth.go`, and the business handlers. -/
inductive HandlerFunc where
  | engine (name : String)
  | AuthMiddleware
  | RBACMiddleware (allowedRoles : List models.Role)
  | health
  | AuthHandler_Login
  | AuthHandler_Logout
  | SaleOrderHandler_GetAll
  | SaleOrderHandler_GetByID
  | SaleOrderHandler_Create
  | SaleOrderHandler_Update
  | SaleOrderHandler_Delete
  | UserHandler_GetAllCashiers
  | UserHandler_GetCashierByID
  | UserHandler_CreateCashier
  | UserHandler_UpdateCashier
  | UserHandler_DeleteCashier
  deriving DecidableEq, Repr

/-- One registered route: method, absolute path and handler chain in running order. -/
structure RouteInfo where
  Method : String
  Path : String
  Handlers : List HandlerFunc
  deriving DecidableEq, Repr

/-- A `RouterGroup`: its middleware and its base path. -/
structure RouterGroup where
  Handlers : List HandlerFunc
  basePath : String
  deriving DecidableEq, Repr

/-- The engine: the middleware of its root group and the routes registered so far. -/
structure Engine where
  Handlers : List HandlerFunc
  routes : List RouteInfo
  deriving DecidableEq, Repr

/-- The elements of a slash-separated path, empty ones left out. -/
def pathElements (p : String) : List (List Char) :=
  (strings.splitChars '/' p.data).filter fun e => e ≠ []

/-- A rooted path from its elements. -/
def rootedPath : List (List Char) → List Char
  | [] => ['/']
  | [e] => '/' :: e
  | e :: rest => '/' :: e ++ rootedPath rest

/-- `joinPaths(absolutePath, relativePath)` for a rooted absolute path and a relative
path that does not end in a slash, neither with `.` or `..` elements: the elements of
both, joined by single slashes. -/
def joinPaths (absolutePath relativePath : String) : String :=
  if relativePath = "" then absolutePath
  else String.mk (rootedPath (pathElements absolutePath ++ pathElements relativePath))

/-- The root group of the engine; its base path is `/`. -/
def Engine.RouterGroup (r : Engine) : RouterGroup :=
  { Handlers := r.Handlers, basePath := "/" }

/-- `group.Use(middleware...)`. -/
def RouterGroup.Use (group : RouterGroup) (middleware : List HandlerFunc) : RouterGroup :=
  { group with Handlers := group.Handlers ++ middleware }

/-- `group.Group(relativePath)`: a new group with a copy of the middleware. -/
def RouterGroup.Group (group : RouterGroup) (relativePath : String) : RouterGroup :=
  { Handlers := group.Handlers, basePath := joinPaths group.basePath relativePath }

/-- `group.handle(httpMethod, relativePath, handlers)`: add the route to the engine, its
chain being the middleware of the group followed by the handlers. -/
def RouterGroup.handle (group : RouterGroup) (r : Engine) (httpMethod relativePath : String)
    (handlers : List HandlerFunc) : Engine :=
  { r with routes := r.routes ++
      [{ Method := httpMethod, Path := joinPaths group.basePath relativePath,
         Handlers := group.Handlers ++ handlers }] }

/-- `group.GET(relativePath, handler)`. -/
def RouterGroup.GET (group : RouterGroup) (r : Engine) (relativePath : String)
    (handler : HandlerFunc) : Engine :=
  group.handle r "GET" relativePath [handler]

/-- `group.POST(relativePath, handler)`. -/
def RouterGroup.POST (group : RouterGroup) (r : Engine) (relativePath : String)
    (handler : HandlerFunc) : Engine :=
  group.handle r "POST" relativePath [handler]

/-- `group.PATCH(relativePath, handler)`. -/
def RouterGroup.PATCH (group : RouterGroup) (r : Engine) (relativePath : String)
    (handler : HandlerFunc) : Engine :=
  group.handle r "PATCH" relativePath [handler]

/-- `group.DELETE(relativePath, handler)`. -/
def RouterGroup.DELETE (group : RouterGroup) (r : Engine) (relativePath : String)
    (handler : HandlerFunc) : Engine :=
  group.handle r "DELETE" relativePath [handler]

end gin

namespace routes

open gin

/-- Go `SetupRoutes(r, db, jwtService)`: the engine after the registrations (the group
`protected` is called `protectedGroup`). -/
def SetupRoutes (r : Engine) : Engine :=
  -- Health check
  let r := r.RouterGroup.GET r "/health" HandlerFunc.health
  -- Auth routes (public)
  let auth := r.RouterGroup.Group "/auth"
  let r := auth.POST r "/login" HandlerFunc.AuthHandler_Login
  -- Protected routes
  let protectedGroup := r.RouterGroup.Group ""
  let protectedGroup := protectedGroup.Use [HandlerFunc.AuthMiddleware]
  -- Logout (requires auth)
  let r := protectedGroup.POST r "/auth/logout" HandlerFunc.AuthHandler_Logout
  -- Sale Orders - accessible by both cashier and owner
  let saleOrders := protectedGroup.Group "/sale-orders"
  let saleOrders :=
    saleOrders.Use [HandlerFunc.RBACMiddleware [models.RoleCashier, models.RoleOwner]]
  let r := saleOrders.GET r "" HandlerFunc.SaleOrderHandler_GetAll
  let r := saleOrders.GET r "/:id" HandlerFunc.SaleOrderHandler_GetByID
  let r := saleOrders.POST r "" HandlerFunc.SaleOrderHandler_Create
  let r := saleOrders.PATCH r "/:id" HandlerFunc.SaleOrderHandler_Update
  let r := saleOrders.DELETE r "/:id" HandlerFunc.SaleOrderHandler_Delete
  -- User Cashier management - owner only
  let users := protectedGroup.Group "/users/cashier"
  let users := users.Use [HandlerFunc.RBACMiddleware [models.RoleOwner]]
  let r := users.GET r "" HandlerFunc.UserHandler_GetAllCashiers
  let r := users.GET r "/:id" HandlerFunc.UserHandler_GetCashierByID
  let r := users.POST r "" HandlerFunc.UserHandler_CreateCashier
  let r := users.PATCH r "/:id" HandlerFunc.UserHandler_UpdateCashier
  let r := users.DELETE r "/:id" HandlerFunc.UserHandler_DeleteCashier
  r

end routes

/-! ## Vocabulary of the statements and sample data -/

namespace Spec

open middleware

/-- The state after one response `(code, status, message, data)` has been written and
nothing else has changed. -/
def responded (s : State) (code : Nat) (status message : String) (data : Any) : State :=
  { TokenBlacklist := s.TokenBlacklist,
    c := { Header := s.c.Header, Body := s.c.Body, Keys := s.c.Keys,
           Written := s.c.Written ++
             [(code, { Code := code, Status := status, Message := message, Data := data })],
           Aborted := s.c.Aborted } }

/-- The state after a request has been turned down: one `failed` response with the given
status code and message and no data is written and the chain is aborted; the blacklist
and the context keys are as before. -/
def rejected (s : State) (code : Nat) (message : String) : State :=
  { TokenBlacklist := s.TokenBlacklist,
    c := { Header := s.c.Header, Body := s.c.Body, Keys := s.c.Keys,
           Written := s.c.Written ++
             [(code, { Code := code, Status := "failed", Message := message, Data := Any.nil })],
           Aborted := true } }

/-- The header has the exact form `Bearer <token>`: the word, one space, and a token that
is not empty and holds no space. -/
def ExactBearer (header : String) : Prop :=
  ∃ t : String, t ≠ "" ∧ ' ' ∉ t.data ∧ header = "Bearer " ++ t

/-- The operations of the program that touch the revocation store. -/
inductive StoreOp where
  | blacklistToken (token : String)
  | authMiddleware (jwtService : utils.JWTService) (c : gin.Context)
  | logout (h : handlers.AuthHandler) (c : gin.Context)
  | logoutRoute (jwtService : utils.JWTService) (h : handlers.AuthHandler)
      (c : gin.Context)

/-- The store after one operation: a direct `BlacklistToken`, a request that runs
`AuthMiddleware` in front of a handler that does nothing, a call of `Logout`, or the route
`POST /auth/logout`, which is `AuthMiddleware` followed by `Logout`.  A request that
panics leaves the store as it was. -/
def StoreOp.apply : StoreOp → TokenBlacklist → TokenBlacklist
  | StoreOp.blacklistToken token, b => BlacklistToken b token
  | StoreOp.authMiddleware jwtService c, b =>
    match AuthMiddleware jwtService some { TokenBlacklist := b, c := c } with
    | some after => after.TokenBlacklist
    | none => b
  | StoreOp.logout h c, b =>
    match h.Logout { TokenBlacklist := b, c := c } with
    | some after => after.TokenBlacklist
    | none => b
  | StoreOp.logoutRoute jwtService h c, b =>
    match AuthMiddleware jwtService h.Logout { TokenBlacklist := b, c := c } with
    | some after => after.TokenBlacklist
    | none => b

/-- The store after a sequence of operations, first to last. -/
def run (ops : List StoreOp) (b : TokenBlacklist) : TokenBlacklist :=
  ops.foldl (fun store op => op.apply store) b

end Spec

namespace Sample

open middleware

/-- A token service that knows one token, `tok`, of the owner `alice` with id 7. -/
def jwtService : utils.JWTService :=
  { ValidateToken := fun t =>
      if t = "tok" then Except.ok { UserID := 7, Username := "alice", Role := models.RoleOwner }
      else Except.error "token is malformed",
    GenerateToken := fun _ => Except.ok "tok" }

/-- A request context with the given `Authorization` header and context keys. -/
def context (authorization : String) (keys : List (String × Any)) : gin.Context :=
  { Header := [("Authorization", authorization)], Body := "", Keys := keys, Written := [],
    Aborted := false }

/-- A state with the given revoked tokens around `context`. -/
def state (revoked : List String) (authorization : String) (keys : List (String × Any)) :
    State :=
  { TokenBlacklist := { tokens := revoked.map fun t => (t, true) },
    c := context authorization keys }

/-- The table `users`: the active cashier bob and the inactive cashier eve. -/
def users : List models.User :=
  [ { ID := 1, Username := "bob", Password := "hash(secret)", Name := "Bob",
      Role := models.RoleCashier, IsActive := true, CreatedAt := 0, UpdatedAt := 0,
      DeletedAt := none },
    { ID := 2, Username := "eve", Password := "hash(secret)", Name := "Eve",
      Role := models.RoleCashier, IsActive := false, CreatedAt := 0, UpdatedAt := 0,
      DeletedAt := none } ]

/-- The handler over the sample table and token service. -/
def authHandler : handlers.AuthHandler :=
  handlers.NewAuthHandler { users := users } jwtService

/-- Sample library behaviour: a body `name:password` binds to that login request, any
other body is a body of the wrong shape; the hash of a password `p` is `hash(p)`; the
lower case of a string is taken letter by letter on `A` to `Z`, which is what
`strings.ToLower` does on the field names of `LoginRequest`. -/
def lib : handlers.Libraries :=
  { ShouldBindJSON := fun body =>
      match strings.Split body ':' with
      | [name, password] => Except.ok { Username := name, Password := password }
      | _ => Except.error (validator.BindError.other "invalid character"),
    CompareHashAndPassword := fun hash password =>
      if hash = "hash(" ++ password ++ ")" then Except.ok ()
      else Except.error "hashedPassword is not the hash of the given password",
    ToLower := fun s => s.map Char.toLower }

/-- A fresh state for a login request with the given body. -/
def loginState (body : String) : State :=
  { TokenBlacklist := { tokens := [] },
    c := { Header := [], Body := body, Keys := [], Written := [], Aborted := false } }

end Sample

/-! ## Vocabulary for configuration, numerals and the route table -/

namespace Spec

/-- The environment variables that `LoadConfig` requires. -/
def requiredVariables : List String :=
  ["JWT_SECRET", "DB_PASSWORD", "DB_USER", "DB_HOST", "DB_NAME"]

/-- The variable is set in the environment, to a value that is not empty. -/
def IsSetNonEmpty (env : os.Environ) (key : String) : Prop :=
  ∃ value, os.LookupEnv env key = some value ∧ value ≠ ""

/-- The bytes of a numeral behind one optional leading sign. -/
def unsigned (s : String) : List Char :=
  if s.data.head? = some '+' ∨ s.data.head? = some '-' then s.data.tail else s.data

/-- The number that a list of decimal digits denotes, most significant digit first. -/
def digitsValue (ds : List Char) : Nat :=
  ds.foldl (fun n c => n * 10 + (c.toNat - '0'.toNat)) 0

/-- The string is a decimal integer: an optional sign followed by one or more digits. -/
def isDecimalInteger (s : String) : Bool :=
  unsigned s != [] && (unsigned s).all strconv.isDigit

/-- The integer that a decimal integer denotes. -/
def decimalValue (s : String) : Int :=
  if s.data.head? = some '-' then -(digitsValue (unsigned s) : Int)
  else (digitsValue (unsigned s) : Int)

/-- The digits at the front of the numeral, behind the optional sign, up to the first
byte that is no digit. -/
def leadingDigits (s : String) : List Char :=
  (unsigned s).takeWhile strconv.isDigit

/-- The routes that `SetupRoutes` adds to an engine. -/
def registered (r : gin.Engine) : List gin.RouteInfo :=
  (routes.SetupRoutes r).routes.drop r.routes.length

/-- The business handlers other than the health check and `Login`. -/
def protectedHandlers : List gin.HandlerFunc :=
  [gin.HandlerFunc.AuthHandler_Logout,
   gin.HandlerFunc.SaleOrderHandler_GetAll, gin.HandlerFunc.SaleOrderHandler_GetByID,
   gin.HandlerFunc.SaleOrderHandler_Create, gin.HandlerFunc.SaleOrderHandler_Update,
   gin.HandlerFunc.SaleOrderHandler_Delete,
   gin.HandlerFunc.UserHandler_GetAllCashiers, gin.HandlerFunc.UserHandler_GetCashierByID,
   gin.HandlerFunc.UserHandler_CreateCashier, gin.HandlerFunc.UserHandler_UpdateCashier,
   gin.HandlerFunc.UserHandler_DeleteCashier]

/-- The path lies under the given base path. -/
def under (base path : String) : Bool :=
  base.data.isPrefixOf path.data

/-- The handler is no role check, or it is an `RBACMiddleware` whose allow-list holds
nothing but `owner` and `cashier`. -/
def listedRolesOnly : gin.HandlerFunc → Bool
  | gin.HandlerFunc.RBACMiddleware allowedRoles =>
    allowedRoles.all fun a => decide (a = models.RoleOwner ∨ a = models.RoleCashier)
  | _ => true

/-- The chain is `AuthMiddleware`, then an `RBACMiddleware` whose allow-list holds nothing
but `owner` and `cashier`, then one more handler. -/
def roleGuarded : List gin.HandlerFunc → Bool
  | [gin.HandlerFunc.AuthMiddleware, gin.HandlerFunc.RBACMiddleware allowedRoles, _] =>
    allowedRoles.all fun a => decide (a = models.RoleOwner ∨ a = models.RoleCashier)
  | _ => false

/-- The role check that the claim about the route table places between `AuthMiddleware`
and the business handler of a route with the given path. -/
def roleCheck (path : String) : List gin.HandlerFunc :=
  if under "/sale-orders" path then
    [gin.HandlerFunc.RBACMiddleware [models.RoleCashier, models.RoleOwner]]
  else if under "/users/cashier" path then
    [gin.HandlerFunc.RBACMiddleware [models.RoleOwner]]
  else []

end Spec

namespace Sample

/-- An environment with the five required variables and nothing else. -/
def environ : os.Environ :=
  [("JWT_SECRET", "s3cret"), ("DB_PASSWORD", "pw"), ("DB_USER", "pos"), ("DB_HOST", "db"),
   ("DB_NAME", "posdb")]

/-- The engine as `main` hands it to `SetupRoutes`: logger, recovery and the CORS
middleware installed, no route registered. -/
def engine : gin.Engine :=
  { Handlers := [gin.HandlerFunc.engine "Logger", gin.HandlerFunc.engine "Recovery",
      gin.HandlerFunc.engine "CORS"],
    routes := [] }

/-- The route `DELETE /users/cashier/:id` as it is registered on `engine`. -/
def deleteCashierRoute : gin.RouteInfo :=
  { Method := "DELETE", Path := "/users/cashier/:id",
    Handlers := [gin.HandlerFunc.engine "Logger", gin.HandlerFunc.engine "Recovery",
      gin.HandlerFunc.engine "CORS", gin.HandlerFunc.AuthMiddleware,
      gin.HandlerFunc.RBACMiddleware [models.RoleOwner],
      gin.HandlerFunc.UserHandler_DeleteCashier] }

end Sample

/-! ## Lemmas -/

namespace strings

theorem splitChars_ne_nil (sep : Char) (l : List Char) : splitChars sep l ≠ [] := by
  cases l with
  | nil => simp [splitChars]
  | cons ch rest =>
    unfold splitChars
    split
    · simp
    · split <;> simp

theorem splitChars_of_not_mem (sep : Char) (l : List Char) (h : sep ∉ l) :
    splitChars sep l = [l] := by
  induction l with
  | nil => rfl
  | cons ch rest ih =>
    have hne : ch ≠ sep := fun e => h (by simp [e])
    have hrest : sep ∉ rest := fun m => h (List.mem_cons_of_mem _ m)
    simp [splitChars, hne, ih hrest]

theorem splitChars_append_sep (sep : Char) (a b : List Char) (h : sep ∉ a) :
    splitChars sep (a ++ sep :: b) = a :: splitChars sep b := by
  induction a with
  | nil => simp [splitChars]
  | cons ch rest ih =>
    have hne : ch ≠ sep := fun e => h (by simp [e])
    have hrest : sep ∉ rest := fun m => h (List.mem_cons_of_mem _ m)
    simp [splitChars, hne, ih hrest]

theorem splitChars_length (sep : Char) (l : List Char) :
    (splitChars sep l).length = l.count sep + 1 := by
  induction l with
  | nil => rfl
  | cons ch rest ih =>
    by_cases hc : ch = sep
    · subst hc
      simp [splitChars, ih]
    · have hc2 : ¬ (ch == sep) = true := by simpa using hc
      cases hs : splitChars sep rest with
      | nil => exact absurd hs (splitChars_ne_nil sep rest)
      | cons piece pieces =>
        rw [hs] at ih
        simp [splitChars, hc, hs, List.count_cons, hc2] at ih ⊢
        exact ih

theorem splitChars_pair (sep : Char) (l a b : List Char) (h : splitChars sep l = [a, b]) :
    l = a ++ sep :: b ∧ sep ∉ a ∧ sep ∉ b := by
  induction l generalizing a with
  | nil => simp [splitChars] at h
  | cons ch rest ih =>
    by_cases hc : ch = sep
    · subst hc
      simp only [splitChars, if_true] at h
      have ha : a = [] := by simpa using (List.cons.inj h).1.symm
      have hb : splitChars ch rest = [b] := (List.cons.inj h).2
      have hlen := splitChars_length ch rest
      rw [hb] at hlen
      have hcount : rest.count ch = 0 := by simpa using hlen.symm
      have hnot : ch ∉ rest := List.count_eq_zero.mp hcount
      have := splitChars_of_not_mem ch rest hnot
      rw [hb] at this
      have hbr : b = rest := by simpa using this
      subst ha; subst hbr
      simp [hnot]
    · cases hs : splitChars sep rest with
      | nil => exact absurd hs (splitChars_ne_nil sep rest)
      | cons piece pieces =>
        simp only [splitChars, hc, if_false, hs] at h
        have h1 : ch :: piece = a := (List.cons.inj h).1
        have h2 : pieces = [b] := (List.cons.inj h).2
        subst h1; subst h2
        obtain ⟨e, na, nb⟩ := ih piece hs
        refine ⟨by simp [e], ?_, nb⟩
        intro m
        rcases List.mem_cons.mp m with m | m
        · exact hc m.symm
        · exact na m

end strings

namespace strings

theorem Split_bearer (t : String) (h : ' ' ∉ t.data) :
    Split ("Bearer " ++ t) ' ' = ["Bearer", t] := by
  have hd : ("Bearer " ++ t).data = "Bearer".data ++ ' ' :: t.data := by
    rw [String.data_append]; rfl
  have hb : ' ' ∉ "Bearer".data := by decide
  simp only [Split, hd, splitChars_append_sep _ _ _ hb, splitChars_of_not_mem _ _ h,
    List.map_cons, List.map_nil]

theorem Split_bearer_length (t : String) :
    (Split ("Bearer " ++ t) ' ').length = t.data.count ' ' + 2 := by
  have hd : ("Bearer " ++ t).data = "Bearer".data ++ ' ' :: t.data := by
    rw [String.data_append]; rfl
  have hb : ' ' ∉ "Bearer".data := by decide
  simp [Split, hd, splitChars_append_sep _ _ _ hb, splitChars_length]

theorem Split_pair_bearer (h : String) (hlen : (Split h ' ').length = 2)
    (hfst : (Split h ' ').getD 0 "" = "Bearer") :
    ∃ t : String, h = "Bearer " ++ t ∧ ' ' ∉ t.data ∧ (Split h ' ').getD 1 "" = t := by
  unfold Split at hlen hfst ⊢
  cases hs : splitChars ' ' h.data with
  | nil => simp [hs] at hlen
  | cons a rest =>
    cases rest with
    | nil => simp [hs] at hlen
    | cons b rest2 =>
      cases rest2 with
      | cons _ _ => simp [hs] at hlen
      | nil =>
        obtain ⟨e, _, nb⟩ := splitChars_pair ' ' h.data a b hs
        simp only [hs, List.map_cons, List.map_nil, List.getD_cons_zero] at hfst
        have ha : a = "Bearer".data := by rw [← hfst]
        refine ⟨String.mk b, ?_, nb, ?_⟩
        · apply String.ext
          rw [String.data_append, e, ha]; rfl
        · simp
end strings

namespace middleware

theorem AuthMiddleware_missing (jwtService : utils.JWTService) (next : Handler) (s : State)
    (h : s.c.GetHeader "Authorization" = "") :
    AuthMiddleware jwtService next s =
      some (rejectUnauthorized s "Authorization header is required") := by
  simp [AuthMiddleware, h]

theorem AuthMiddleware_bearer (jwtService : utils.JWTService) (next : Handler) (s : State)
    (t : String) (h : s.c.GetHeader "Authorization" = "Bearer " ++ t) (ht : ' ' ∉ t.data) :
    AuthMiddleware jwtService next s =
      if s.TokenBlacklist.lookup t then
        some (rejectUnauthorized s "Token has been invalidated")
      else
        match jwtService.ValidateToken t with
        | Except.error _ => some (rejectUnauthorized s "Invalid or expired token")
        | Except.ok claims =>
          next (State.mk s.TokenBlacklist
            ((((s.c.Set "user_id" (Any.uint claims.UserID)).Set "username"
              (Any.string claims.Username)).Set "role" (Any.Role claims.Role)).Set "token"
              (Any.string t))) := by
  have hne : ("Bearer " ++ t) ≠ "" := by
    intro e
    have := congrArg String.data e
    rw [String.data_append] at this
    simp at this
  simp only [AuthMiddleware, h, hne, if_false, strings.Split_bearer t ht]
  simp

theorem AuthMiddleware_malformed (jwtService : utils.JWTService) (next : Handler) (s : State)
    (hne : s.c.GetHeader "Authorization" ≠ "")
    (h : ∀ t : String, ' ' ∉ t.data → s.c.GetHeader "Authorization" ≠ "Bearer " ++ t) :
    AuthMiddleware jwtService next s =
      some (rejectUnauthorized s "Invalid authorization header format") := by
  by_cases hp : (strings.Split (s.c.GetHeader "Authorization") ' ').length ≠ 2 ∨
      (strings.Split (s.c.GetHeader "Authorization") ' ').getD 0 "" ≠ "Bearer"
  · simp only [AuthMiddleware, hne, if_false, hp, if_true]
  · exfalso
    have hp1 : (strings.Split (s.c.GetHeader "Authorization") ' ').length = 2 := by
      by_contra hh; exact hp (Or.inl hh)
    have hp2 : (strings.Split (s.c.GetHeader "Authorization") ' ').getD 0 "" = "Bearer" := by
      by_contra hh; exact hp (Or.inr hh)
    obtain ⟨t, e, nt, _⟩ := strings.Split_pair_bearer _ hp1 hp2
    exact h t nt e

end middleware

namespace middleware

theorem rejectUnauthorized_eq (s : State) (message : String) :
    rejectUnauthorized s message = Spec.rejected s 401 message := rfl

theorem RBACMiddleware_range_mem (userRole : models.Role) (next : Handler) (s : State)
    (allowedRoles : List models.Role) (h : userRole ∈ allowedRoles) :
    RBACMiddleware.range userRole next s allowedRoles = next s := by
  induction allowedRoles with
  | nil => simp at h
  | cons role rest ih =>
    by_cases e : userRole = role
    · simp [RBACMiddleware.range, e]
    · have hr : userRole ∈ rest := by
        rcases List.mem_cons.mp h with h | h
        · exact absurd h e
        · exact h
      simp [RBACMiddleware.range, e, ih hr]

theorem RBACMiddleware_range_not_mem (userRole : models.Role) (next : Handler) (s : State)
    (allowedRoles : List models.Role) (h : userRole ∉ allowedRoles) :
    RBACMiddleware.range userRole next s allowedRoles =
      some (Spec.rejected s 403 "You don't have permission to access this resource") := by
  induction allowedRoles with
  | nil => rfl
  | cons role rest ih =>
    have e : userRole ≠ role := fun e => h (by simp [e])
    have hr : userRole ∉ rest := fun m => h (List.mem_cons_of_mem _ m)
    simp [RBACMiddleware.range, e, ih hr]

end middleware

namespace gorm

theorem firstByID_mem (rows : List models.User) (u : models.User)
    (h : firstByID rows = some u) : u ∈ rows := by
  induction rows generalizing u with
  | nil => simp [firstByID] at h
  | cons r rest ih =>
    unfold firstByID at h
    cases hr : firstByID rest with
    | none =>
      rw [hr] at h
      simp only [Option.some.injEq] at h
      simp [h]
    | some v =>
      rw [hr] at h
      by_cases hle : r.ID ≤ v.ID
      · simp only [hle, if_true, Option.some.injEq] at h
        simp [h]
      · simp only [hle, if_false, Option.some.injEq] at h
        exact List.mem_cons_of_mem _ (ih v (h ▸ hr) |> fun m => h ▸ m)

theorem WhereUsernameIsActiveFirst_ok (db : DB) (username : String) (isActive : Bool)
    (user : models.User) (h : db.WhereUsernameIsActiveFirst username isActive = Except.ok user) :
    user ∈ db.users ∧ user.Username = username ∧ user.IsActive = isActive ∧
      user.DeletedAt = none := by
  unfold DB.WhereUsernameIsActiveFirst at h
  split at h
  · exact Except.noConfusion h
  · rename_i found hfound
    have e : found = user := by injection h
    subst e
    have hm := firstByID_mem _ _ hfound
    simpa using List.mem_filter.mp hm

end gorm

namespace middleware

theorem lookup_BlacklistToken_self (b : TokenBlacklist) (t : String) :
    (BlacklistToken b t).lookup t = true := by
  simp [BlacklistToken, TokenBlacklist.lookup, List.lookup]

theorem lookup_BlacklistToken_of_lookup (b : TokenBlacklist) (t u : String)
    (h : b.lookup t = true) : (BlacklistToken b u).lookup t = true := by
  by_cases e : t = u
  · subst e
    exact lookup_BlacklistToken_self b t
  · have hb : (t == u) = false := by simpa using e
    simpa [BlacklistToken, TokenBlacklist.lookup, List.lookup, hb] using h

theorem AuthMiddleware_rejects_or_continues (jwtService : utils.JWTService) (s : State) :
    (∃ message, ∀ next : Handler,
      AuthMiddleware jwtService next s = some (Spec.rejected s 401 message)) ∨
    (∃ (t : String) (claims : utils.Claims),
      s.c.GetHeader "Authorization" = "Bearer " ++ t ∧ ' ' ∉ t.data ∧
      s.TokenBlacklist.lookup t = false ∧ jwtService.ValidateToken t = Except.ok claims ∧
      ∀ next : Handler, AuthMiddleware jwtService next s =
        next (State.mk s.TokenBlacklist
          ((((s.c.Set "user_id" (Any.uint claims.UserID)).Set "username"
            (Any.string claims.Username)).Set "role" (Any.Role claims.Role)).Set "token"
            (Any.string t)))) := by
  by_cases h0 : s.c.GetHeader "Authorization" = ""
  · exact Or.inl ⟨_, fun next => AuthMiddleware_missing jwtService next s h0⟩
  · by_cases hb : ∃ t : String, ' ' ∉ t.data ∧ s.c.GetHeader "Authorization" = "Bearer " ++ t
    · obtain ⟨t, hsp, ht⟩ := hb
      by_cases hr : s.TokenBlacklist.lookup t = true
      · refine Or.inl ⟨"Token has been invalidated", fun next => ?_⟩
        rw [AuthMiddleware_bearer jwtService next s t ht hsp]
        simp only [hr, if_true]
        rfl
      · cases hv : jwtService.ValidateToken t with
        | error e =>
          refine Or.inl ⟨"Invalid or expired token", fun next => ?_⟩
          rw [AuthMiddleware_bearer jwtService next s t ht hsp]
          simp only [hr, hv]
          rfl
        | ok claims =>
          refine Or.inr ⟨t, claims, ht, hsp, by simpa using hr, hv, fun next => ?_⟩
          rw [AuthMiddleware_bearer jwtService next s t ht hsp]
          simp only [hr, hv]
          rfl
    · refine Or.inl ⟨_, fun next => AuthMiddleware_malformed jwtService next s h0 ?_⟩
      intro t hsp e
      exact hb ⟨t, hsp, e⟩

theorem AuthMiddleware_blacklist_grows (jwtService : utils.JWTService) (next : Handler)
    (hnext : ∀ (a b : State) (t : String), next a = some b →
      a.TokenBlacklist.lookup t = true → b.TokenBlacklist.lookup t = true)
    (s r : State) (t : String) (h : AuthMiddleware jwtService next s = some r)
    (ht : s.TokenBlacklist.lookup t = true) : r.TokenBlacklist.lookup t = true := by
  rcases AuthMiddleware_rejects_or_continues jwtService s with ⟨m, hm⟩ | ⟨u, cl, _, _, _, _, hc⟩
  · rw [hm next] at h
    have e : Spec.rejected s 401 m = r := by injection h
    rw [← e]
    exact ht
  · rw [hc next] at h
    exact hnext _ _ t h ht

end middleware

namespace handlers

open middleware

theorem Logout_blacklist_grows (h : AuthHandler) (a b : State) (t : String)
    (hrun : h.Logout a = some b) (ht : a.TokenBlacklist.lookup t = true) :
    b.TokenBlacklist.lookup t = true := by
  unfold AuthHandler.Logout at hrun
  split at hrun
  · simp only [Option.some.injEq] at hrun
    rw [← hrun]
    exact ht
  · split at hrun
    · simp only [Option.some.injEq] at hrun
      rw [← hrun]
      exact lookup_BlacklistToken_of_lookup _ _ _ ht
    · exact Option.noConfusion hrun

end handlers

namespace os

theorem Getenv_ne_empty_iff (env : Environ) (key : String) :
    Getenv env key ≠ "" ↔ Spec.IsSetNonEmpty env key := by
  unfold Getenv Spec.IsSetNonEmpty LookupEnv
  cases h : env.lookup key with
  | none => simp
  | some v => simp

end os

namespace config

theorem LoadConfig_ok_iff (env : os.Environ) :
    (∃ cfg, LoadConfig env = Except.ok cfg) ↔
      os.Getenv env "JWT_SECRET" ≠ "" ∧ os.Getenv env "DB_PASSWORD" ≠ "" ∧
      os.Getenv env "DB_USER" ≠ "" ∧ os.Getenv env "DB_HOST" ≠ "" ∧
      os.Getenv env "DB_NAME" ≠ "" := by
  unfold LoadConfig
  by_cases h1 : os.Getenv env "JWT_SECRET" = ""
  · simp [h1]
  by_cases h2 : os.Getenv env "DB_PASSWORD" = ""
  · simp [h1, h2]
  by_cases h3 : os.Getenv env "DB_USER" = ""
  · simp [h1, h2, h3]
  by_cases h4 : os.Getenv env "DB_HOST" = ""
  · simp [h1, h2, h3, h4]
  by_cases h5 : os.Getenv env "DB_NAME" = ""
  · simp [h1, h2, h3, h4, h5]
  simp [h1, h2, h3, h4, h5]

theorem LoadConfig_ok_fields (env : os.Environ) (cfg : Config)
    (h : LoadConfig env = Except.ok cfg) :
    cfg.JWTSecret = os.Getenv env "JWT_SECRET" ∧
      cfg.JWTExpiry = (strconv.Atoi (getEnv env "JWT_EXPIRY_HOURS" "24")).1 := by
  unfold LoadConfig at h
  by_cases h1 : os.Getenv env "JWT_SECRET" = ""
  · simp [h1] at h
  by_cases h2 : os.Getenv env "DB_PASSWORD" = ""
  · simp [h1, h2] at h
  by_cases h3 : os.Getenv env "DB_USER" = ""
  · simp [h1, h2, h3] at h
  by_cases h4 : os.Getenv env "DB_HOST" = ""
  · simp [h1, h2, h3, h4] at h
  by_cases h5 : os.Getenv env "DB_NAME" = ""
  · simp [h1, h2, h3, h4, h5] at h
  simp only [h1, h2, h3, h4, h5, if_false] at h
  have e : _ = cfg := Except.ok.inj h
  rw [← e]
  exact ⟨rfl, rfl⟩

end config

namespace Go

theorem int64_of_range (x : Int) (h1 : -(2 ^ 63) ≤ x) (h2 : x < 2 ^ 63) : int64 x = x := by
  unfold int64
  rw [Int.emod_eq_of_lt (by omega) (by omega)]
  omega

end Go

namespace strconv

theorem isDigit_bounds (c : Char) (h : isDigit c = true) : 48 ≤ c.toNat ∧ c.toNat ≤ 57 := by
  unfold isDigit at h
  simp only [Bool.and_eq_true, decide_eq_true_eq] at h
  obtain ⟨h1, h2⟩ := h
  have h1' : ('0' : Char).toNat ≤ c.toNat := h1
  have h2' : c.toNat ≤ ('9' : Char).toNat := h2
  have e0 : ('0' : Char).toNat = 48 := rfl
  have e9 : ('9' : Char).toNat = 57 := rfl
  omega

theorem length_le_len (s : String) : s.data.length ≤ Go.len s := by
  cases s with
  | mk l =>
    show l.length ≤ String.utf8ByteSize.go l
    induction l with
    | nil => simp [String.utf8ByteSize.go]
    | cons c rest ih =>
      simp only [String.utf8ByteSize.go, List.length_cons]
      have := Char.utf8Size_pos c
      omega

theorem len_pos_iff (s : String) : 0 < Go.len s ↔ s.data ≠ [] := by
  cases s with
  | mk l =>
    show 0 < String.utf8ByteSize.go l ↔ l ≠ []
    cases l with
    | nil => simp [String.utf8ByteSize.go]
    | cons c rest =>
      simp only [String.utf8ByteSize.go, ne_eq, reduceCtorEq, not_false_eq_true, iff_true]
      have := Char.utf8Size_pos c
      omega

theorem value_ge (ds : List Char) (n : Nat) :
    n ≤ ds.foldl (fun n c => n * 10 + (c.toNat - '0'.toNat)) n := by
  induction ds generalizing n with
  | nil => simp
  | cons c rest ih =>
    simp only [List.foldl_cons]
    have := ih (n * 10 + (c.toNat - '0'.toNat))
    omega

theorem value_lt (ds : List Char) (n : Nat) (hd : ∀ c ∈ ds, isDigit c = true) :
    ds.foldl (fun n c => n * 10 + (c.toNat - '0'.toNat)) n < (n + 1) * 10 ^ ds.length := by
  induction ds generalizing n with
  | nil => simp
  | cons c rest ih =>
    simp only [List.foldl_cons, List.length_cons]
    have hc := isDigit_bounds c (hd c (by simp))
    have e0 : ('0' : Char).toNat = 48 := rfl
    have := ih (n * 10 + (c.toNat - '0'.toNat)) (fun x hx => hd x (List.mem_cons_of_mem _ hx))
    have hle : n * 10 + (c.toNat - '0'.toNat) + 1 ≤ (n + 1) * 10 := by omega
    calc List.foldl (fun n c => n * 10 + (c.toNat - '0'.toNat)) (n * 10 + (c.toNat - '0'.toNat)) rest
        < (n * 10 + (c.toNat - '0'.toNat) + 1) * 10 ^ rest.length := this
      _ ≤ ((n + 1) * 10) * 10 ^ rest.length := Nat.mul_le_mul_right _ hle
      _ = (n + 1) * 10 ^ (rest.length + 1) := by ring

theorem ParseUint_loop_digits (ds : List Char) (n : Nat) (hd : ∀ c ∈ ds, isDigit c = true)
    (hv : ds.foldl (fun n c => n * 10 + (c.toNat - '0'.toNat)) n ≤ 2 ^ 64 - 1) :
    ParseUint.loop n ds = (ds.foldl (fun n c => n * 10 + (c.toNat - '0'.toNat)) n, none) := by
  induction ds generalizing n with
  | nil => rfl
  | cons c rest ih =>
    simp only [List.foldl_cons] at hv ⊢
    have hc : isDigit c = true := hd c (by simp)
    have hb := isDigit_bounds c hc
    have e0 : ('0' : Char).toNat = 48 := rfl
    have hge := value_ge rest (n * 10 + (c.toNat - '0'.toNat))
    have hn : n * 10 + (c.toNat - '0'.toNat) ≤ 2 ^ 64 - 1 := le_trans hge hv
    have hcut : ¬ n ≥ (2 ^ 64 - 1) / 10 + 1 := by
      norm_num at hn ⊢
      omega
    have hw1 : Go.uint64 (n * 10) = n * 10 := by
      unfold Go.uint64
      apply Nat.mod_eq_of_lt
      norm_num at hn ⊢
      omega
    have hw2 : Go.uint64 (n * 10 + (c.toNat - '0'.toNat)) = n * 10 + (c.toNat - '0'.toNat) := by
      unfold Go.uint64
      apply Nat.mod_eq_of_lt
      norm_num at hn ⊢
      omega
    have hno : ¬ (n * 10 + (c.toNat - '0'.toNat) < n * 10 ∨
        n * 10 + (c.toNat - '0'.toNat) > 2 ^ 64 - 1) := by
      norm_num at hn ⊢
      omega
    unfold ParseUint.loop
    simp only [hc, if_true, hcut, if_false, hw1, hw2, hno]
    exact ih _ (fun x hx => hd x (List.mem_cons_of_mem _ hx)) hv

theorem ParseUint_loop_nondigit (ds : List Char) (n : Nat) (c : Char) (rest : List Char)
    (hd : ∀ x ∈ ds, isDigit x = true)
    (hv : ds.foldl (fun n c => n * 10 + (c.toNat - '0'.toNat)) n ≤ 2 ^ 64 - 1)
    (hc : isDigit c = false) :
    ParseUint.loop n (ds ++ c :: rest) = (0, some NumError.ErrSyntax) := by
  induction ds generalizing n with
  | nil =>
    simp only [List.nil_append]
    unfold ParseUint.loop
    simp [hc]
  | cons x xs ih =>
    simp only [List.foldl_cons] at hv
    have hx : isDigit x = true := hd x (by simp)
    have hb := isDigit_bounds x hx
    have e0 : ('0' : Char).toNat = 48 := rfl
    have hge := value_ge xs (n * 10 + (x.toNat - '0'.toNat))
    have hn : n * 10 + (x.toNat - '0'.toNat) ≤ 2 ^ 64 - 1 := le_trans hge hv
    have hcut : ¬ n ≥ (2 ^ 64 - 1) / 10 + 1 := by
      norm_num at hn ⊢
      omega
    have hw1 : Go.uint64 (n * 10) = n * 10 := by
      unfold Go.uint64
      apply Nat.mod_eq_of_lt
      norm_num at hn ⊢
      omega
    have hw2 : Go.uint64 (n * 10 + (x.toNat - '0'.toNat)) = n * 10 + (x.toNat - '0'.toNat) := by
      unfold Go.uint64
      apply Nat.mod_eq_of_lt
      norm_num at hn ⊢
      omega
    have hno : ¬ (n * 10 + (x.toNat - '0'.toNat) < n * 10 ∨
        n * 10 + (x.toNat - '0'.toNat) > 2 ^ 64 - 1) := by
      norm_num at hn ⊢
      omega
    simp only [List.cons_append]
    unfold ParseUint.loop
    simp only [hx, if_true, hcut, if_false, hw1, hw2, hno]
    exact ih _ (fun y hy => hd y (List.mem_cons_of_mem _ hy)) hv

theorem Atoi_loop_digits (ds : List Char) (n : Nat) (hd : ∀ c ∈ ds, isDigit c = true)
    (hv : ds.foldl (fun n c => n * 10 + (c.toNat - '0'.toNat)) n < 2 ^ 63) :
    Atoi.loop (n : Int) ds =
      (((ds.foldl (fun n c => n * 10 + (c.toNat - '0'.toNat)) n : Nat) : Int), none) := by
  induction ds generalizing n with
  | nil => rfl
  | cons c rest ih =>
    simp only [List.foldl_cons] at hv ⊢
    have hc : isDigit c = true := hd c (by simp)
    have hge := value_ge rest (n * 10 + (c.toNat - '0'.toNat))
    have hn : n * 10 + (c.toNat - '0'.toNat) < 2 ^ 63 := lt_of_le_of_lt hge hv
    have hw : Go.int64 ((n : Int) * 10 + ((c.toNat - '0'.toNat : Nat) : Int)) =
        ((n * 10 + (c.toNat - '0'.toNat) : Nat) : Int) := by
      rw [Go.int64_of_range]
      · push_cast; ring
      · have : (0 : Int) ≤ (n : Int) * 10 + ((c.toNat - '0'.toNat : Nat) : Int) := by positivity
        omega
      · have : (((n * 10 + (c.toNat - '0'.toNat) : Nat) : Int)) < 2 ^ 63 := by exact_mod_cast hn
        push_cast at this
        linarith
    unfold Atoi.loop
    simp only [hc, if_true, hw]
    exact ih _ (fun x hx => hd x (List.mem_cons_of_mem _ hx)) hv

theorem Atoi_loop_nondigit (ds : List Char) (n : Int) (c : Char) (rest : List Char)
    (hd : ∀ x ∈ ds, isDigit x = true) (hc : isDigit c = false) :
    Atoi.loop n (ds ++ c :: rest) = (0, some NumError.ErrSyntax) := by
  induction ds generalizing n with
  | nil =>
    simp only [List.nil_append]
    unfold Atoi.loop
    simp [hc]
  | cons x xs ih =>
    have hx : isDigit x = true := hd x (by simp)
    simp only [List.cons_append]
    unfold Atoi.loop
    simp only [hx, if_true]
    exact ih _ (fun y hy => hd y (List.mem_cons_of_mem _ hy))

theorem split_at_nondigit (l : List Char) (h : l.all isDigit = false) :
    ∃ c rest, l = l.takeWhile isDigit ++ c :: rest ∧ isDigit c = false := by
  induction l with
  | nil => simp at h
  | cons x xs ih =>
    by_cases hx : isDigit x = true
    · have hxs : xs.all isDigit = false := by
        simpa [List.all_cons, hx] using h
      obtain ⟨c, rest, e, hc⟩ := ih hxs
      refine ⟨c, rest, ?_, hc⟩
      simp only [List.takeWhile_cons, hx, if_true, List.cons_append]
      rw [← e]
    · have hx' : isDigit x = false := by simpa using hx
      exact ⟨x, xs, by simp [List.takeWhile_cons, hx'], hx'⟩

theorem takeWhile_digits (l : List Char) : ∀ c ∈ l.takeWhile isDigit, isDigit c = true :=
  fun _ hc => List.mem_takeWhile_imp hc

end strconv

namespace strconv

theorem unsigned_length_le (s : String) : (Spec.unsigned s).length ≤ s.data.length := by
  unfold Spec.unsigned
  split
  · simp
  · exact le_refl _

theorem unsigned_ne_nil (s : String) (h : Spec.unsigned s ≠ []) : s.data ≠ [] := by
  intro e
  apply h
  unfold Spec.unsigned
  simp [e]

theorem unsigned_swap (s : String) :
    (if s.data.head? = some '-' ∨ s.data.head? = some '+' then s.data.tail else s.data) =
      Spec.unsigned s := by
  unfold Spec.unsigned
  by_cases h1 : s.data.head? = some '+' <;> by_cases h2 : s.data.head? = some '-' <;>
    simp [h1, h2]

theorem ParseInt_decimal (s : String) (hne : Spec.unsigned s ≠ [])
    (hall : ∀ c ∈ Spec.unsigned s, isDigit c = true)
    (h1 : -(2 ^ 63) ≤ Spec.decimalValue s) (h2 : Spec.decimalValue s < 2 ^ 63) :
    ParseInt s.data = (Spec.decimalValue s, none) := by
  have hdata : s.data ≠ [] := unsigned_ne_nil s hne
  have hV : ∀ n : Nat, Spec.digitsValue (Spec.unsigned s) = n →
      ParseInt s.data = (Spec.decimalValue s, none) := by
    intro V hVdef
    have hVle : V ≤ 2 ^ 63 := by
      unfold Spec.decimalValue at h1 h2
      rw [hVdef] at h1 h2
      split at h1
      · omega
      · rename_i hneg
        simp only [hneg, if_false] at h2
        omega
    have hloop : ParseUint.loop 0 (Spec.unsigned s) = (V, none) := by
      have := ParseUint_loop_digits (Spec.unsigned s) 0 hall (by
        have e : List.foldl (fun n c => n * 10 + (c.toNat - '0'.toNat)) 0 (Spec.unsigned s) = V :=
          hVdef
        rw [e]
        norm_num at hVle ⊢
        omega)
      rw [this]
      exact congrArg (fun v => (v, none)) hVdef
    have hpu : ParseUint (Spec.unsigned s) = (V, none) := by
      unfold ParseUint
      simp only [hne, if_false, hloop]
    have hs1 : (if s.data.head? = some '+' ∨ s.data.head? = some '-' then s.data.tail
        else s.data) = Spec.unsigned s := rfl
    unfold ParseInt
    simp only [hdata, if_false, hs1, hpu]
    unfold Spec.decimalValue
    rw [hVdef]
    by_cases hneg : s.data.head? = some '-'
    · have hVr : -(2 ^ 63 : Int) ≤ -(V : Int) := by
        unfold Spec.decimalValue at h1
        rw [hVdef] at h1
        simpa [hneg] using h1
      have hc2 : ¬ (V > 2 ^ (IntSize - 1)) := by
        have : (V : Int) ≤ 2 ^ 63 := by omega
        have hV2 : V ≤ 2 ^ 63 := by exact_mod_cast this
        simp only [IntSize]
        norm_num at hV2 ⊢
        omega
      simp only [hneg, not_true_eq_false, false_and, if_false, true_and, hc2, if_true,
        reduceCtorEq, decide_True, decide_False]
      by_cases hlt : V < 2 ^ 63
      · have hw : Go.int64 (V : Int) = (V : Int) :=
          Go.int64_of_range _ (by have := Int.ofNat_nonneg V; omega) (by exact_mod_cast hlt)
        rw [hw, Go.int64_of_range _ hVr (by
          have := Int.ofNat_nonneg V
          omega)]
      · have hVe : V = 2 ^ 63 := by omega
        subst hVe
        rfl
    · have hlt : (V : Int) < 2 ^ 63 := by
        unfold Spec.decimalValue at h2
        rw [hVdef] at h2
        simpa [hneg] using h2
      have hc1 : ¬ (V ≥ 2 ^ (IntSize - 1)) := by
        have hV2 : V < 2 ^ 63 := by exact_mod_cast hlt
        simp only [IntSize]
        norm_num at hV2 ⊢
        omega
      have hw : Go.int64 (V : Int) = (V : Int) :=
        Go.int64_of_range _ (by have := Int.ofNat_nonneg V; omega) hlt
      simp only [hneg, not_false_eq_true, true_and, hc1, if_false, false_and, hw,
        reduceCtorEq, decide_True, decide_False]
  exact hV _ rfl

end strconv

namespace strconv

theorem isDecimalInteger_iff (s : String) :
    Spec.isDecimalInteger s = true ↔
      Spec.unsigned s ≠ [] ∧ ∀ c ∈ Spec.unsigned s, isDigit c = true := by
  unfold Spec.isDecimalInteger
  simp [List.all_eq_true]

theorem Atoi_decimal (s : String) (hdec : Spec.isDecimalInteger s = true)
    (h1 : -(2 ^ 63) ≤ Spec.decimalValue s) (h2 : Spec.decimalValue s < 2 ^ 63) :
    Atoi s = (Spec.decimalValue s, none) := by
  obtain ⟨hne, hall⟩ := (isDecimalInteger_iff s).mp hdec
  by_cases hfast : 0 < Go.len s ∧ Go.len s < 19
  · have hlen : (Spec.unsigned s).length < 19 := by
      have a := unsigned_length_le s
      have b := length_le_len s
      omega
    have hpos : ¬ (Spec.unsigned s).length < 1 := by
      cases hu : Spec.unsigned s with
      | nil => exact absurd hu hne
      | cons _ _ => simp
    have hvlt := value_lt (Spec.unsigned s) 0 hall
    have hpow : 10 ^ (Spec.unsigned s).length ≤ 10 ^ 18 :=
      Nat.pow_le_pow_right (by norm_num) (by omega)
    have hV : List.foldl (fun n c => n * 10 + (c.toNat - '0'.toNat)) 0 (Spec.unsigned s)
        < 2 ^ 63 := by
      norm_num at hvlt hpow ⊢
      omega
    have hloop := Atoi_loop_digits (Spec.unsigned s) 0 hall hV
    have hloop' : Atoi.loop 0 (Spec.unsigned s) =
        ((Spec.digitsValue (Spec.unsigned s) : Int), none) := hloop
    unfold Atoi
    simp only [hfast, and_self, if_true, unsigned_swap, hpos, if_false, hloop', ne_eq,
      not_true_eq_false]
    unfold Spec.decimalValue
    by_cases hneg : s.data.head? = some '-'
    · simp only [hneg, if_true]
      have hr : Go.int64 (-(Spec.digitsValue (Spec.unsigned s) : Int)) =
          -(Spec.digitsValue (Spec.unsigned s) : Int) := by
        apply Go.int64_of_range
        · have : ((Spec.digitsValue (Spec.unsigned s) : Nat) : Int) < 2 ^ 63 := by
            exact_mod_cast hV
          omega
        · have := Int.ofNat_nonneg (Spec.digitsValue (Spec.unsigned s))
          omega
      rw [hr]
    · simp only [hneg, if_false]
  · have hp := ParseInt_decimal s hne hall h1 h2
    unfold Atoi
    simp only [hfast, if_false, hp]
    rw [Go.int64_of_range _ h1 h2]

theorem Atoi_not_decimal (s : String) (hdec : Spec.isDecimalInteger s = false)
    (hv : Spec.digitsValue (Spec.leadingDigits s) ≤ 2 ^ 64 - 1) :
    Atoi s = (0, some NumError.ErrSyntax) := by
  have hcases : Spec.unsigned s = [] ∨ (Spec.unsigned s).all isDigit = false := by
    unfold Spec.isDecimalInteger at hdec
    by_cases hu : Spec.unsigned s = []
    · exact Or.inl hu
    · right
      simpa [hu] using hdec
  have hzero : Go.int64 0 = 0 := by decide
  by_cases hfast : 0 < Go.len s ∧ Go.len s < 19
  · unfold Atoi
    simp only [hfast, and_self, if_true, unsigned_swap]
    rcases hcases with hu | hnd
    · simp [hu]
    · obtain ⟨c, rest, e, hc⟩ := split_at_nondigit _ hnd
      have hpos : ¬ (Spec.unsigned s).length < 1 := by
        rw [e]
        simp
      have hloop : Atoi.loop 0 (Spec.unsigned s) = (0, some NumError.ErrSyntax) := by
        rw [e]
        exact Atoi_loop_nondigit _ 0 c rest (takeWhile_digits _) hc
      simp only [hpos, if_false, hloop, ne_eq, reduceCtorEq, not_false_eq_true, if_true]
  · have hs1 : (if s.data.head? = some '+' ∨ s.data.head? = some '-' then s.data.tail
        else s.data) = Spec.unsigned s := rfl
    have hparse : ParseInt s.data = (0, some NumError.ErrSyntax) := by
      unfold ParseInt
      by_cases hd : s.data = []
      · simp [hd]
      · simp only [hd, if_false, hs1]
        have hpu : ParseUint (Spec.unsigned s) = (0, some NumError.ErrSyntax) := by
          unfold ParseUint
          rcases hcases with hu | hnd
          · simp [hu]
          · obtain ⟨c, rest, e, hc⟩ := split_at_nondigit _ hnd
            have hne : Spec.unsigned s ≠ [] := by
              rw [e]
              simp
            simp only [hne, if_false]
            rw [e]
            exact ParseUint_loop_nondigit _ 0 c rest (takeWhile_digits _) hv hc
        simp only [hpu, if_true]
    unfold Atoi
    simp only [hfast, if_false, hparse, hzero]

end strconv

namespace routes

theorem registered_eq_map (e : gin.Engine) :
    Spec.registered e =
      (Spec.registered { Handlers := [], routes := [] }).map fun route =>
        { Method := route.Method, Path := route.Path,
          Handlers := e.Handlers ++ route.Handlers } := by
  unfold Spec.registered
  have hroutes : ∀ tail : List gin.RouteInfo, (e.routes ++ tail).drop e.routes.length = tail :=
    fun tail => List.drop_left e.routes tail
  simp only [routes.SetupRoutes, gin.RouterGroup.GET, gin.RouterGroup.POST,
    gin.RouterGroup.PATCH, gin.RouterGroup.DELETE, gin.RouterGroup.handle,
    gin.RouterGroup.Group, gin.RouterGroup.Use, gin.Engine.RouterGroup,
    List.append_assoc, hroutes]
  rfl

theorem roleGuarded_shape (chain : List gin.HandlerFunc) (h : Spec.roleGuarded chain = true) :
    ∃ (allowedRoles : List models.Role) (handler : gin.HandlerFunc),
      chain = [gin.HandlerFunc.AuthMiddleware, gin.HandlerFunc.RBACMiddleware allowedRoles,
        handler] ∧
      ∀ a ∈ allowedRoles, a = models.RoleOwner ∨ a = models.RoleCashier := by
  rcases chain with _ | ⟨a, _ | ⟨b, _ | ⟨c, _ | ⟨d, rest⟩⟩⟩⟩
  · simp [Spec.roleGuarded] at h
  · cases a <;> simp [Spec.roleGuarded] at h
  · cases a <;> cases b <;> simp [Spec.roleGuarded] at h
  · cases a <;> cases b <;> simp [Spec.roleGuarded] at h
    rename_i allowedRoles
    exact ⟨allowedRoles, c, rfl, fun x hx => h x hx⟩
  · cases a <;> cases b <;> simp [Spec.roleGuarded] at h

theorem listedRolesOnly_spec (allowedRoles : List models.Role)
    (h : Spec.listedRolesOnly (gin.HandlerFunc.RBACMiddleware allowedRoles) = true) :
    ∀ a ∈ allowedRoles, a = models.RoleOwner ∨ a = models.RoleCashier := by
  intro a ha
  simp only [Spec.listedRolesOnly, List.all_eq_true, decide_eq_true_eq] at h
  exact h a ha

end routes

/-! ## Claims -/

open middleware

/-- C1: for every allow-list and every context whose `role` key holds a role `r`,
`RBACMiddleware` hands the unchanged state to the rest of the chain (one call of `next`,
no response written) when `r` is in the list, and otherwise (also for the empty list)
writes 403 Forbidden, aborts and does not run `next`; it passes if and only if `r` is a
member.  With the allow-list `owner`, a cashier gets 403 and an owner passes. -/
theorem rbac_passes_iff_role_allowed (allowedRoles : List models.Role) (s : State)
    (r : models.Role) (hrole : s.c.Get "role" = some (Any.Role r)) :
    (r ∈ allowedRoles → ∀ next : Handler, RBACMiddleware allowedRoles next s = next s) ∧
    (r ∉ allowedRoles → ∀ next : Handler, RBACMiddleware allowedRoles next s =
      some (Spec.rejected s 403 "You don't have permission to access this resource")) ∧
    ((∀ next : Handler, RBACMiddleware allowedRoles next s = next s) ↔ r ∈ allowedRoles) ∧
    (r = models.RoleCashier → ∀ next : Handler, RBACMiddleware [models.RoleOwner] next s =
      some (Spec.rejected s 403 "You don't have permission to access this resource")) ∧
    (r = models.RoleOwner → ∀ next : Handler,
      RBACMiddleware [models.RoleOwner] next s = next s) := by
  have hin : ∀ allowed : List models.Role, r ∈ allowed →
      ∀ next : Handler, RBACMiddleware allowed next s = next s := by
    intro allowed hm next
    simp only [RBACMiddleware, hrole]
    exact RBACMiddleware_range_mem r next s allowed hm
  have hout : ∀ allowed : List models.Role, r ∉ allowed →
      ∀ next : Handler, RBACMiddleware allowed next s =
        some (Spec.rejected s 403 "You don't have permission to access this resource") := by
    intro allowed hm next
    simp only [RBACMiddleware, hrole]
    exact RBACMiddleware_range_not_mem r next s allowed hm
  refine ⟨hin allowedRoles, hout allowedRoles, ⟨?_, hin allowedRoles⟩, ?_, ?_⟩
  · intro hpass
    by_contra hm
    have h1 := hpass (fun _ => none)
    rw [hout allowedRoles hm] at h1
    exact Option.noConfusion h1
  · intro e
    subst e
    exact hout [models.RoleOwner] (by decide)
  · intro e
    subst e
    exact hin [models.RoleOwner] (by decide)

/-- C1 at a cashier identity behind the allow-list `owner`: the request is answered with
403 and the handler behind the check, here `Logout`, does not run. -/
theorem rbac_passes_iff_role_allowed_witness :
    (Sample.state [] "" [("role", Any.Role "cashier")]).c.Get "role" =
        some (Any.Role "cashier") ∧
      RBACMiddleware [models.RoleOwner] (handlers.AuthHandler.Logout ⟨⟨[]⟩, Sample.jwtService⟩)
          (Sample.state [] "" [("role", Any.Role "cashier")]) =
        some (Spec.rejected (Sample.state [] "" [("role", Any.Role "cashier")]) 403
          "You don't have permission to access this resource") :=
  ⟨by decide,
    (rbac_passes_iff_role_allowed [models.RoleOwner]
      (Sample.state [] "" [("role", Any.Role "cashier")]) "cashier" (by decide)).2.1
      (by decide) _⟩

/-- C2: a revoked token is never accepted.  For every blacklist, every token service and
every request whose `Authorization` header is `Bearer t` with `t` on the blacklist,
`AuthMiddleware` answers 401 and aborts; the state it leaves has the context keys
untouched (no identity is attached) and does not depend on the rest of the chain, which
is not run.  Nothing is assumed about `ValidateToken`, so this holds for a token that is
validly signed and unexpired as well.  The message is `Token has been invalidated`,
unless `t` holds a space, in which case the header is turned down for its format. -/
theorem revoked_token_is_rejected (jwtService : utils.JWTService) (next : Handler)
    (s : State) (t : String) (hheader : s.c.GetHeader "Authorization" = "Bearer " ++ t)
    (hrevoked : s.TokenBlacklist.lookup t = true) :
    AuthMiddleware jwtService next s =
      some (Spec.rejected s 401
        (if ' ' ∈ t.data then "Invalid authorization header format"
         else "Token has been invalidated")) := by
  by_cases hsp : ' ' ∈ t.data
  · have hne : s.c.GetHeader "Authorization" ≠ "" := by
      rw [hheader]
      intro e
      have := congrArg String.data e
      rw [String.data_append] at this
      simp at this
    have hlen : (strings.Split (s.c.GetHeader "Authorization") ' ').length ≠ 2 := by
      rw [hheader, strings.Split_bearer_length]
      have : 0 < t.data.count ' ' := List.count_pos_iff.mpr hsp
      omega
    simp only [AuthMiddleware, hne, if_false, hlen, ne_eq, not_false_eq_true, true_or,
      if_true, hsp]
    rfl
  · rw [AuthMiddleware_bearer jwtService next s t hheader hsp]
    simp only [hrevoked, if_true, hsp, if_false]
    rfl

/-- C2 at the token `tok`, which the sample token service accepts, once it is revoked. -/
theorem revoked_token_is_rejected_witness :
    (Sample.state ["tok"] "Bearer tok" []).c.GetHeader "Authorization" = "Bearer " ++ "tok" ∧
      (Sample.state ["tok"] "Bearer tok" []).TokenBlacklist.lookup "tok" = true ∧
      Sample.jwtService.ValidateToken "tok" =
        Except.ok { UserID := 7, Username := "alice", Role := "owner" } ∧
      AuthMiddleware Sample.jwtService some (Sample.state ["tok"] "Bearer tok" []) =
        some (Spec.rejected (Sample.state ["tok"] "Bearer tok" []) 401
          "Token has been invalidated") :=
  ⟨by decide, by decide, rfl,
    revoked_token_is_rejected Sample.jwtService some (Sample.state ["tok"] "Bearer tok" [])
      "tok" (by decide) (by decide)⟩

/-- C3: every `Authorization` header that is not of the exact form `Bearer <token>`
(the word, one space, a token that is not empty and holds no space) is answered by
`AuthMiddleware` with 401 Unauthorized and an abort, and the rest of the chain is not
run.  The token service enters only for the header `Bearer ` with an empty token, which
passes the split and is turned down when the empty string fails `ValidateToken` (or is
revoked); that the token service does not accept the empty string is assumed.  The second
part lists the headers named in the claim: none has the exact form. -/
theorem inexact_header_is_rejected :
    (∀ (jwtService : utils.JWTService) (next : Handler) (s : State),
      (∀ claims, jwtService.ValidateToken "" ≠ Except.ok claims) →
      ¬ Spec.ExactBearer (s.c.GetHeader "Authorization") →
      ∃ message, AuthMiddleware jwtService next s = some (Spec.rejected s 401 message)) ∧
    (∀ header ∈ ["", "Bearer", "Bearer ", "bearer x", "Token x", "Bearer a b", "Bearer  x"],
      ¬ Spec.ExactBearer header) := by
  constructor
  · intro jwtService next s hempty hform
    by_cases h0 : s.c.GetHeader "Authorization" = ""
    · exact ⟨_, AuthMiddleware_missing jwtService next s h0⟩
    · by_cases hb : ∃ t : String, ' ' ∉ t.data ∧ s.c.GetHeader "Authorization" = "Bearer " ++ t
      · obtain ⟨t, hsp, ht⟩ := hb
        have hte : t = "" := by
          by_contra hne
          exact hform ⟨t, hne, hsp, ht⟩
        subst hte
        rw [AuthMiddleware_bearer jwtService next s "" ht hsp]
        by_cases hr : s.TokenBlacklist.lookup "" = true
        · exact ⟨_, by simp only [hr, if_true]; rfl⟩
        · cases hv : jwtService.ValidateToken "" with
          | error e => exact ⟨_, by simp only [hr]; rfl⟩
          | ok claims => exact absurd hv (hempty claims)
      · refine ⟨_, AuthMiddleware_malformed jwtService next s h0 ?_⟩
        intro t hsp e
        exact hb ⟨t, hsp, e⟩
  · intro header hmem
    rintro ⟨t, hne, hsp, e⟩
    have hd := congrArg String.data e
    rw [String.data_append] at hd
    have hq : ("Bearer " : String).data = ['B', 'e', 'a', 'r', 'e', 'r', ' '] := rfl
    rw [hq] at hd
    simp only [List.mem_cons, List.mem_singleton, List.not_mem_nil, or_false] at hmem
    rcases hmem with h | h | h | h | h | h | h <;> subst h
    · have : ("" : String).data = [] := rfl
      rw [this] at hd
      simp at hd
    · have : ("Bearer" : String).data = ['B', 'e', 'a', 'r', 'e', 'r'] := rfl
      rw [this] at hd
      simp at hd
    · have : ("Bearer " : String).data = ['B', 'e', 'a', 'r', 'e', 'r', ' '] := rfl
      rw [this] at hd
      simp at hd
      exact hne (String.ext (by simp [← hd]))
    · have : ("bearer x" : String).data = ['b', 'e', 'a', 'r', 'e', 'r', ' ', 'x'] := rfl
      rw [this] at hd
      simp at hd
    · have : ("Token x" : String).data = ['T', 'o', 'k', 'e', 'n', ' ', 'x'] := rfl
      rw [this] at hd
      simp at hd
    · have : ("Bearer a b" : String).data =
          ['B', 'e', 'a', 'r', 'e', 'r', ' ', 'a', ' ', 'b'] := rfl
      rw [this] at hd
      simp at hd
      exact hsp (by simp [← hd])
    · have : ("Bearer  x" : String).data = ['B', 'e', 'a', 'r', 'e', 'r', ' ', ' ', 'x'] := rfl
      rw [this] at hd
      simp at hd
      exact hsp (by simp [← hd])

/-- C3 at the header `Bearer  x` with two spaces, which yields the format message. -/
theorem inexact_header_is_rejected_witness :
    (∀ claims, Sample.jwtService.ValidateToken "" ≠ Except.ok claims) ∧
      ¬ Spec.ExactBearer ((Sample.state [] "Bearer  x" []).c.GetHeader "Authorization") ∧
      (∃ message, AuthMiddleware Sample.jwtService some (Sample.state [] "Bearer  x" []) =
        some (Spec.rejected (Sample.state [] "Bearer  x" []) 401 message)) ∧
      AuthMiddleware Sample.jwtService some (Sample.state [] "Bearer  x" []) =
        some (Spec.rejected (Sample.state [] "Bearer  x" []) 401
          "Invalid authorization header format") :=
  ⟨by simp [Sample.jwtService],
    inexact_header_is_rejected.2 "Bearer  x" (by decide),
    inexact_header_is_rejected.1 Sample.jwtService some (Sample.state [] "Bearer  x" [])
      (by simp [Sample.jwtService]) (inexact_header_is_rejected.2 "Bearer  x" (by decide)),
    by decide⟩

/-- C4, as the code has it: every rejection by `AuthMiddleware` is the same envelope
(status 401, code 401, status text `failed`, no data, chain aborted, context keys
untouched) and differs from the others only in the message, which is fixed by the check
that failed: a missing header, a malformed header, a revoked token and a token that fails
`ValidateToken` get four different messages. -/
theorem auth_failures_share_status_not_message (jwtService : utils.JWTService)
    (next : Handler) (s : State) :
    (s.c.GetHeader "Authorization" = "" →
      AuthMiddleware jwtService next s =
        some (Spec.rejected s 401 "Authorization header is required")) ∧
    (s.c.GetHeader "Authorization" ≠ "" →
      (∀ t : String, ' ' ∉ t.data → s.c.GetHeader "Authorization" ≠ "Bearer " ++ t) →
      AuthMiddleware jwtService next s =
        some (Spec.rejected s 401 "Invalid authorization header format")) ∧
    (∀ t : String, s.c.GetHeader "Authorization" = "Bearer " ++ t → ' ' ∉ t.data →
      s.TokenBlacklist.lookup t = true →
      AuthMiddleware jwtService next s =
        some (Spec.rejected s 401 "Token has been invalidated")) ∧
    (∀ (t : String) (e : String), s.c.GetHeader "Authorization" = "Bearer " ++ t →
      ' ' ∉ t.data → s.TokenBlacklist.lookup t = false →
      jwtService.ValidateToken t = Except.error e →
      AuthMiddleware jwtService next s =
        some (Spec.rejected s 401 "Invalid or expired token")) ∧
    ["Authorization header is required", "Invalid authorization header format",
      "Token has been invalidated", "Invalid or expired token"].Nodup := by
  refine ⟨fun h => AuthMiddleware_missing jwtService next s h,
    fun h0 h => AuthMiddleware_malformed jwtService next s h0 h, ?_, ?_, by decide⟩
  · intro t ht hsp hr
    rw [AuthMiddleware_bearer jwtService next s t ht hsp]
    simp only [hr, if_true]
    rfl
  · intro t e ht hsp hr hv
    rw [AuthMiddleware_bearer jwtService next s t ht hsp]
    simp only [hr, hv]
    rfl

/-- C4 at a request whose token fails `ValidateToken`. -/
theorem auth_failures_share_status_not_message_witness :
    (Sample.state [] "Bearer abc" []).c.GetHeader "Authorization" = "Bearer " ++ "abc" ∧
      ' ' ∉ ("abc" : String).data ∧
      (Sample.state [] "Bearer abc" []).TokenBlacklist.lookup "abc" = false ∧
      Sample.jwtService.ValidateToken "abc" = Except.error "token is malformed" ∧
      AuthMiddleware Sample.jwtService some (Sample.state [] "Bearer abc" []) =
        some (Spec.rejected (Sample.state [] "Bearer abc" []) 401 "Invalid or expired token") :=
  ⟨by decide, by decide, by decide, rfl,
    (auth_failures_share_status_not_message Sample.jwtService some
      (Sample.state [] "Bearer abc" [])).2.2.2.1 "abc" "token is malformed"
      (by decide) (by decide) (by decide) rfl⟩

/-- C4 as stated fails: a request without `Authorization` header and a request with the
header `Token x` are both rejected with status 401, yet the response bodies differ (in the
message), so the caller can tell which check failed. -/
theorem auth_failures_are_distinguishable :
    AuthMiddleware Sample.jwtService some (Sample.state [] "" []) =
        some (Spec.rejected (Sample.state [] "" []) 401 "Authorization header is required") ∧
      AuthMiddleware Sample.jwtService some (Sample.state [] "Token x" []) =
        some (Spec.rejected (Sample.state [] "Token x" []) 401
          "Invalid authorization header format") ∧
      (Spec.rejected (Sample.state [] "" []) 401 "Authorization header is required").c.Written ≠
        (Spec.rejected (Sample.state [] "Token x" []) 401
          "Invalid authorization header format").c.Written := by
  refine ⟨by decide, by decide, by decide⟩

/-- C5: enumeration resistance of `Login`.  For every user table, token service and
library behaviour, and every request body that binds to a login request `req`, `Login`
leaves one and the same state, the unchanged state plus the response 401 `failed`
`Invalid username or password` without data, (1) when no row has the username, (2) when
the rows with the username are all inactive, and (3) when there are live active rows with
the username but the password matches the stored hash of none of them; (3) covers
(1) and (2), so no credential failure answers differently from another. -/
theorem login_failures_are_identical (lib : handlers.Libraries) (h : handlers.AuthHandler)
    (s : State) (req : handlers.LoginRequest)
    (hbind : lib.ShouldBindJSON s.c.Body = Except.ok req) :
    ((∀ u ∈ h.DB.users, u.Username ≠ req.Username) →
      h.Login lib s =
        some (Spec.responded s 401 "failed" "Invalid username or password" Any.nil)) ∧
    ((∀ u ∈ h.DB.users, u.Username = req.Username → u.IsActive = false) →
      h.Login lib s =
        some (Spec.responded s 401 "failed" "Invalid username or password" Any.nil)) ∧
    ((∀ u ∈ h.DB.users, u.Username = req.Username → u.IsActive = true →
        u.DeletedAt = none →
        ∃ e, lib.CompareHashAndPassword u.Password req.Password = Except.error e) →
      h.Login lib s =
        some (Spec.responded s 401 "failed" "Invalid username or password" Any.nil)) := by
  have key : (∀ u ∈ h.DB.users, u.Username = req.Username → u.IsActive = true →
        u.DeletedAt = none →
        ∃ e, lib.CompareHashAndPassword u.Password req.Password = Except.error e) →
      h.Login lib s =
        some (Spec.responded s 401 "failed" "Invalid username or password" Any.nil) := by
    intro hall
    unfold handlers.AuthHandler.Login
    simp only [hbind]
    cases hq : h.DB.WhereUsernameIsActiveFirst req.Username true with
    | error e => rfl
    | ok user =>
      obtain ⟨hm, hu, ha, hd⟩ := gorm.WhereUsernameIsActiveFirst_ok _ _ _ _ hq
      obtain ⟨e, he⟩ := hall user hm hu ha hd
      simp only [he]
      rfl
  refine ⟨fun hno => key ?_, fun hin => key ?_, key⟩
  · intro u hu he
    exact absurd he (hno u hu)
  · intro u hu he ha
    rw [hin u hu he] at ha
    exact Bool.noConfusion ha

/-- C5 at a table with the active user bob and the inactive user eve: a login of bob with
a wrong password is answered as the theorem says, and the logins of the unknown user zed
and of eve get the very same response. -/
theorem login_failures_are_identical_witness :
    Sample.lib.ShouldBindJSON (Sample.loginState "bob:wrong").c.Body =
        Except.ok { Username := "bob", Password := "wrong" } ∧
      (∀ u ∈ Sample.authHandler.DB.users, u.Username = "bob" → u.IsActive = true →
        u.DeletedAt = none →
        ∃ e, Sample.lib.CompareHashAndPassword u.Password "wrong" = Except.error e) ∧
      Sample.authHandler.Login Sample.lib (Sample.loginState "bob:wrong") =
        some (Spec.responded (Sample.loginState "bob:wrong") 401 "failed"
          "Invalid username or password" Any.nil) ∧
      (Sample.authHandler.Login Sample.lib (Sample.loginState "zed:secret")).map
          (fun r => r.c.Written) =
        (Sample.authHandler.Login Sample.lib (Sample.loginState "bob:wrong")).map
          (fun r => r.c.Written) ∧
      (Sample.authHandler.Login Sample.lib (Sample.loginState "eve:secret")).map
          (fun r => r.c.Written) =
        (Sample.authHandler.Login Sample.lib (Sample.loginState "bob:wrong")).map
          (fun r => r.c.Written) :=
  have hall : ∀ u ∈ Sample.authHandler.DB.users, u.Username = "bob" → u.IsActive = true →
      u.DeletedAt = none →
      ∃ e, Sample.lib.CompareHashAndPassword u.Password "wrong" = Except.error e := by
    intro u hu
    simp only [Sample.authHandler, handlers.NewAuthHandler, Sample.users, List.mem_cons,
      List.mem_singleton, List.not_mem_nil, or_false] at hu
    rcases hu with rfl | rfl
    · intro _ _ _
      exact ⟨"hashedPassword is not the hash of the given password", rfl⟩
    · intro hn
      exact absurd hn (by decide)
  ⟨rfl, hall,
    (login_failures_are_identical Sample.lib Sample.authHandler (Sample.loginState "bob:wrong")
      { Username := "bob", Password := "wrong" } rfl).2.2 hall,
    by decide, by decide⟩

/-- C6: `Logout` revokes the presented token.  For every blacklist and every context whose
`token` key holds the string `t`, `Logout` returns (it does not panic), the blacklist it
leaves reads `t` as revoked, and the context it leaves is the old one plus the response
200 `success` `Logout successful` without data.  Hence a later request that presents
`Bearer t` to `AuthMiddleware` over that blacklist is answered with 401 and aborted,
whatever the token service says about `t` and whatever follows in the chain. -/
theorem logout_revokes_presented_token (h : handlers.AuthHandler) (s : State) (t : String)
    (htoken : s.c.Get "token" = some (Any.string t)) :
    ∃ after : State, h.Logout s = some after ∧
      after.TokenBlacklist.lookup t = true ∧
      after.c = (Spec.responded s 200 "success" "Logout successful" Any.nil).c ∧
      ∀ (jwtService : utils.JWTService) (next : Handler) (later : State),
        later.TokenBlacklist = after.TokenBlacklist →
        later.c.GetHeader "Authorization" = "Bearer " ++ t →
        ∃ message, AuthMiddleware jwtService next later =
          some (Spec.rejected later 401 message) := by
  refine ⟨{ TokenBlacklist := BlacklistToken s.TokenBlacklist t,
            c := utils.OKResponse s.c "Logout successful" Any.nil }, ?_, ?_, rfl, ?_⟩
  · simp only [handlers.AuthHandler.Logout, htoken]
  · exact lookup_BlacklistToken_self _ _
  · intro jwtService next later hb hh
    have hr : later.TokenBlacklist.lookup t = true := by
      rw [hb]
      exact lookup_BlacklistToken_self _ _
    rcases AuthMiddleware_rejects_or_continues jwtService later with ⟨m, hm⟩ | hpass
    · exact ⟨m, hm next⟩
    · obtain ⟨u, claims, hu, -, hnr, -, -⟩ := hpass
      have e : u = t := by
        have := hh.symm.trans hu
        have hd := congrArg String.data this
        rw [String.data_append, String.data_append] at hd
        exact (String.ext (List.append_cancel_left hd)).symm
      subst e
      rw [hr] at hnr
      exact Bool.noConfusion hnr

/-- C6 at the token `tok` of the sample token service: the token is accepted before the
logout and turned down after it. -/
theorem logout_revokes_presented_token_witness :
    (Sample.state [] "Bearer tok" [("token", Any.string "tok")]).c.Get "token" =
        some (Any.string "tok") ∧
      (∃ after : State,
        Sample.authHandler.Logout (Sample.state [] "Bearer tok" [("token", Any.string "tok")]) =
          some after ∧
        after.TokenBlacklist.lookup "tok" = true ∧
        after.c = (Spec.responded (Sample.state [] "Bearer tok" [("token", Any.string "tok")])
          200 "success" "Logout successful" Any.nil).c ∧
        ∀ (jwtService : utils.JWTService) (next : Handler) (later : State),
          later.TokenBlacklist = after.TokenBlacklist →
          later.c.GetHeader "Authorization" = "Bearer " ++ "tok" →
          ∃ message, AuthMiddleware jwtService next later =
            some (Spec.rejected later 401 message)) ∧
      (AuthMiddleware Sample.jwtService some (Sample.state [] "Bearer tok" [])).map
          (fun r => r.c.Aborted) = some false ∧
      (AuthMiddleware Sample.jwtService some (Sample.state ["tok"] "Bearer tok" [])).map
          (fun r => r.c.Written) =
        some [(401, { Code := 401, Status := "failed", Message := "Token has been invalidated",
                      Data := Any.nil })] :=
  ⟨by decide,
    logout_revokes_presented_token Sample.authHandler
      (Sample.state [] "Bearer tok" [("token", Any.string "tok")]) "tok" (by decide),
    by decide, by decide⟩

/-- C7: revocation is permanent.  For every blacklist `b` and token `t`, after
`BlacklistToken(t)` the lookup of `t` is true, and it is still true after any finite
sequence of further operations on the store: `BlacklistToken` of any token, a request
through `AuthMiddleware` (alone or in front of `Logout`, with any token service and any
context) and `Logout` on any context.  More generally no operation turns a revoked token
back: what reads as revoked before a sequence reads as revoked after it. -/
theorem revocation_is_permanent (b : TokenBlacklist) (t : String) :
    (BlacklistToken b t).lookup t = true ∧
    (∀ ops : List Spec.StoreOp, (Spec.run ops (BlacklistToken b t)).lookup t = true) ∧
    (∀ (ops : List Spec.StoreOp) (u : String),
      b.lookup u = true → (Spec.run ops b).lookup u = true) := by
  have step : ∀ (op : Spec.StoreOp) (a : TokenBlacklist) (u : String),
      a.lookup u = true → (op.apply a).lookup u = true := by
    intro op a u hu
    cases op with
    | blacklistToken token => exact lookup_BlacklistToken_of_lookup a u token hu
    | authMiddleware jwtService c =>
      simp only [Spec.StoreOp.apply]
      cases hrun : AuthMiddleware jwtService some ⟨a, c⟩ with
      | none => exact hu
      | some r =>
        refine AuthMiddleware_blacklist_grows jwtService some ?_ ⟨a, c⟩ r u hrun hu
        intro x y v hxy hv
        have e : x = y := by injection hxy
        rw [← e]
        exact hv
    | logout h c =>
      simp only [Spec.StoreOp.apply]
      cases hrun : h.Logout ⟨a, c⟩ with
      | none => exact hu
      | some r => exact handlers.Logout_blacklist_grows h ⟨a, c⟩ r u hrun hu
    | logoutRoute jwtService h c =>
      simp only [Spec.StoreOp.apply]
      cases hrun : AuthMiddleware jwtService h.Logout ⟨a, c⟩ with
      | none => exact hu
      | some r =>
        exact AuthMiddleware_blacklist_grows jwtService h.Logout
          (fun x y v hxy hv => handlers.Logout_blacklist_grows h x y v hxy hv) ⟨a, c⟩ r u hrun hu
  have runs : ∀ (ops : List Spec.StoreOp) (a : TokenBlacklist) (u : String),
      a.lookup u = true → (Spec.run ops a).lookup u = true := by
    intro ops
    induction ops with
    | nil => intro a u hu; exact hu
    | cons op rest ih =>
      intro a u hu
      simp only [Spec.run, List.foldl_cons]
      exact ih (op.apply a) u (step op a u hu)
  exact ⟨lookup_BlacklistToken_self b t,
    fun ops => runs ops _ t (lookup_BlacklistToken_self b t), fun ops u hu => runs ops b u hu⟩

/-- C7 on a store where `tok` is revoked: after a logout of another token, a request
through `AuthMiddleware` and a second revocation, `tok` still reads as revoked. -/
theorem revocation_is_permanent_witness :
    (Sample.state ["tok"] "" []).TokenBlacklist.lookup "tok" = true ∧
      (Spec.run
        [Spec.StoreOp.logout Sample.authHandler (Sample.context "" [("token", Any.string "t2")]),
         Spec.StoreOp.authMiddleware Sample.jwtService (Sample.context "Bearer tok" []),
         Spec.StoreOp.blacklistToken "t3"]
        (Sample.state ["tok"] "" []).TokenBlacklist).lookup "tok" = true :=
  ⟨by decide,
    (revocation_is_permanent (Sample.state ["tok"] "" []).TokenBlacklist "tok").2.2 _ "tok"
      (by decide)⟩

/-- C8: for every allow-list, a context without a `role` key is answered by
`RBACMiddleware` with 401 Unauthorized and an abort; the rest of the chain is not run,
whatever it is. -/
theorem rbac_without_role_is_unauthorized (allowedRoles : List models.Role) (next : Handler)
    (s : State) (hrole : s.c.Get "role" = none) :
    RBACMiddleware allowedRoles next s = some (Spec.rejected s 401 "User role not found") := by
  simp only [RBACMiddleware, hrole]
  rfl

/-- C8 at a context with no keys and the allow-list cashier, owner. -/
theorem rbac_without_role_is_unauthorized_witness :
    (Sample.state [] "" []).c.Get "role" = none ∧
      RBACMiddleware [models.RoleCashier, models.RoleOwner]
          (handlers.AuthHandler.Logout ⟨⟨[]⟩, Sample.jwtService⟩) (Sample.state [] "" []) =
        some (Spec.rejected (Sample.state [] "" []) 401 "User role not found") :=
  ⟨by decide,
    rbac_without_role_is_unauthorized [models.RoleCashier, models.RoleOwner] _
      (Sample.state [] "" []) (by decide)⟩

/-- C9: for every request whose header is `Bearer t`, with `t` a token string (it holds
no space) that is not on the blacklist and for which `ValidateToken` returns claims,
`AuthMiddleware` runs the rest of the chain once, on a state whose blacklist is unchanged
and whose context reads `user_id`, `username` and `role` as the claims say and `token`
as the raw string `t`; every other key, the headers and the body are as before, no
response is written and the abort flag is untouched. -/
theorem valid_token_attaches_identity (jwtService : utils.JWTService) (next : Handler)
    (s : State) (t : String) (claims : utils.Claims)
    (hheader : s.c.GetHeader "Authorization" = "Bearer " ++ t) (htoken : ' ' ∉ t.data)
    (hfresh : s.TokenBlacklist.lookup t = false)
    (hvalid : jwtService.ValidateToken t = Except.ok claims) :
    ∃ c : gin.Context,
      AuthMiddleware jwtService next s = next { TokenBlacklist := s.TokenBlacklist, c := c } ∧
      c.Get "user_id" = some (Any.uint claims.UserID) ∧
      c.Get "username" = some (Any.string claims.Username) ∧
      c.Get "role" = some (Any.Role claims.Role) ∧
      c.Get "token" = some (Any.string t) ∧
      (∀ key, key ∉ ["user_id", "username", "role", "token"] → c.Get key = s.c.Get key) ∧
      c.Written = s.c.Written ∧ c.Aborted = s.c.Aborted ∧
      c.Header = s.c.Header ∧ c.Body = s.c.Body := by
  refine ⟨(((s.c.Set "user_id" (Any.uint claims.UserID)).Set "username"
    (Any.string claims.Username)).Set "role" (Any.Role claims.Role)).Set "token"
    (Any.string t), ?_, ?_, ?_, ?_, ?_, ?_, rfl, rfl, rfl, rfl⟩
  · rw [AuthMiddleware_bearer jwtService next s t hheader htoken]
    simp only [hfresh, hvalid]
    rfl
  · simp [gin.Context.Get, gin.Context.Set, List.lookup]
  · simp [gin.Context.Get, gin.Context.Set, List.lookup]
  · simp [gin.Context.Get, gin.Context.Set, List.lookup]
  · simp [gin.Context.Get, gin.Context.Set, List.lookup]
  · intro key hkey
    simp only [List.mem_cons, List.mem_singleton, List.not_mem_nil, or_false, not_or] at hkey
    obtain ⟨h1, h2, h3, h4⟩ := hkey
    have b1 : (key == "user_id") = false := by simpa using h1
    have b2 : (key == "username") = false := by simpa using h2
    have b3 : (key == "role") = false := by simpa using h3
    have b4 : (key == "token") = false := by simpa using h4
    simp [gin.Context.Get, gin.Context.Set, List.lookup, b1, b2, b3, b4]

/-- C9 at the token `tok` of the sample token service, in front of `RBACMiddleware` for
the owner: the request passes both and the context carries the identity of alice. -/
theorem valid_token_attaches_identity_witness :
    (Sample.state [] "Bearer tok" []).c.GetHeader "Authorization" = "Bearer " ++ "tok" ∧
      ' ' ∉ ("tok" : String).data ∧
      (Sample.state [] "Bearer tok" []).TokenBlacklist.lookup "tok" = false ∧
      Sample.jwtService.ValidateToken "tok" =
        Except.ok { UserID := 7, Username := "alice", Role := "owner" } ∧
      (∃ c : gin.Context,
        AuthMiddleware Sample.jwtService (RBACMiddleware [models.RoleOwner] some)
            (Sample.state [] "Bearer tok" []) =
          RBACMiddleware [models.RoleOwner] some { TokenBlacklist := { tokens := [] }, c := c } ∧
        c.Get "user_id" = some (Any.uint 7) ∧
        c.Get "username" = some (Any.string "alice") ∧
        c.Get "role" = some (Any.Role "owner") ∧
        c.Get "token" = some (Any.string "tok") ∧
        (∀ key, key ∉ ["user_id", "username", "role", "token"] →
          c.Get key = (Sample.state [] "Bearer tok" []).c.Get key) ∧
        c.Written = [] ∧ c.Aborted = false ∧
        c.Header = [("Authorization", "Bearer tok")] ∧ c.Body = "") ∧
      AuthMiddleware Sample.jwtService (RBACMiddleware [models.RoleOwner] some)
          (Sample.state [] "Bearer tok" []) =
        some (Sample.state [] "Bearer tok"
          [("token", Any.string "tok"), ("role", Any.Role "owner"),
           ("username", Any.string "alice"), ("user_id", Any.uint 7)]) :=
  ⟨by decide, by decide, by decide, rfl,
    valid_token_attaches_identity Sample.jwtService (RBACMiddleware [models.RoleOwner] some)
      (Sample.state [] "Bearer tok" []) "tok" { UserID := 7, Username := "alice", Role := "owner" }
      (by decide) (by decide) (by decide) rfl,
    by decide⟩

/-- C10: every failed check of `AuthMiddleware` is terminal.  First, for every request whose
header is `Bearer t` and whose token fails `ValidateToken`, `AuthMiddleware` answers 401,
aborts, leaves the context keys untouched and does not run the rest of the chain.  Second,
for every request the middleware does one of two things, the same for every rest of the chain:
it leaves the 401 rejection without running the rest, or the header is `Bearer t` with a
token without space, `t` is not revoked, `ValidateToken` accepts `t`, and the rest runs
once.  Third, if the rest of the chain is a probe that panics, the middleware panics only when
the header check, the revocation check and `ValidateToken` have all passed. -/
theorem failed_check_is_terminal (jwtService : utils.JWTService) (s : State) :
    (∀ (t e : String), s.c.GetHeader "Authorization" = "Bearer " ++ t →
      jwtService.ValidateToken t = Except.error e →
      ∃ message, ∀ next : Handler,
        AuthMiddleware jwtService next s = some (Spec.rejected s 401 message)) ∧
    ((∃ message, ∀ next : Handler,
        AuthMiddleware jwtService next s = some (Spec.rejected s 401 message)) ∨
      (∃ (t : String) (claims : utils.Claims),
        s.c.GetHeader "Authorization" = "Bearer " ++ t ∧ ' ' ∉ t.data ∧
        s.TokenBlacklist.lookup t = false ∧ jwtService.ValidateToken t = Except.ok claims ∧
        ∀ next : Handler, AuthMiddleware jwtService next s =
          next (State.mk s.TokenBlacklist
            ((((s.c.Set "user_id" (Any.uint claims.UserID)).Set "username"
              (Any.string claims.Username)).Set "role" (Any.Role claims.Role)).Set "token"
              (Any.string t))))) ∧
    (AuthMiddleware jwtService (fun _ => none) s = none →
      ∃ (t : String) (claims : utils.Claims),
        s.c.GetHeader "Authorization" = "Bearer " ++ t ∧ ' ' ∉ t.data ∧
        s.TokenBlacklist.lookup t = false ∧
        jwtService.ValidateToken t = Except.ok claims) := by
  have hd := AuthMiddleware_rejects_or_continues jwtService s
  refine ⟨?_, hd, ?_⟩
  · intro t e hheader hv
    rcases hd with hrej | ⟨u, claims, hu, -, -, hok, -⟩
    · exact hrej
    · exfalso
      have e2 : u = t := by
        have hdat := congrArg String.data (hheader.symm.trans hu)
        rw [String.data_append, String.data_append] at hdat
        exact (String.ext (List.append_cancel_left hdat)).symm
      subst e2
      rw [hv] at hok
      exact Except.noConfusion hok
  · intro hnone
    rcases hd with ⟨m, hm⟩ | ⟨t, claims, h1, h2, h3, h4, -⟩
    · rw [hm] at hnone
      exact Option.noConfusion hnone
    · exact ⟨t, claims, h1, h2, h3, h4⟩

/-- C10 at a token that the sample token service turns down, in front of a probe. -/
theorem failed_check_is_terminal_witness :
    (Sample.state [] "Bearer expired" []).c.GetHeader "Authorization" = "Bearer " ++ "expired" ∧
      Sample.jwtService.ValidateToken "expired" = Except.error "token is malformed" ∧
      (∃ message, ∀ next : Handler,
        AuthMiddleware Sample.jwtService next (Sample.state [] "Bearer expired" []) =
          some (Spec.rejected (Sample.state [] "Bearer expired" []) 401 message)) ∧
      AuthMiddleware Sample.jwtService (fun _ => none) (Sample.state [] "Bearer expired" []) =
        some (Spec.rejected (Sample.state [] "Bearer expired" []) 401
          "Invalid or expired token") :=
  ⟨by decide, rfl,
    (failed_check_is_terminal Sample.jwtService (Sample.state [] "Bearer expired" [])).1
      "expired" "token is malformed" (by decide) rfl,
    by decide⟩

/-- C11: `LoadConfig` fails whenever `JWT_SECRET` is unset or empty, whatever the rest of
the environment is; it returns a `Config` if and only if `JWT_SECRET`, `DB_PASSWORD`,
`DB_USER`, `DB_HOST` and `DB_NAME` are all set to values that are not empty; and the
`JWTSecret` of a returned `Config` is the value of `JWT_SECRET`, which is not empty, so
no default secret is ever put in its place. -/
theorem load_config_requires_secret (env : os.Environ) :
    ((os.LookupEnv env "JWT_SECRET" = none ∨ os.LookupEnv env "JWT_SECRET" = some "") →
      config.LoadConfig env = Except.error "JWT_SECRET environment variable is required") ∧
    ((∃ cfg, config.LoadConfig env = Except.ok cfg) ↔
      ∀ key ∈ Spec.requiredVariables, Spec.IsSetNonEmpty env key) ∧
    (∀ cfg, config.LoadConfig env = Except.ok cfg →
      os.LookupEnv env "JWT_SECRET" = some cfg.JWTSecret ∧ cfg.JWTSecret ≠ "") := by
  refine ⟨?_, ?_, ?_⟩
  · intro h
    have hs : os.Getenv env "JWT_SECRET" = "" := by
      unfold os.Getenv
      unfold os.LookupEnv at h
      rcases h with h | h <;> simp [h]
    simp [config.LoadConfig, hs]
  · rw [config.LoadConfig_ok_iff]
    simp only [Spec.requiredVariables, List.mem_cons, List.mem_singleton, List.not_mem_nil,
      or_false, forall_eq_or_imp, forall_eq, os.Getenv_ne_empty_iff]
  · intro cfg h
    have hok : os.Getenv env "JWT_SECRET" ≠ "" :=
      ((config.LoadConfig_ok_iff env).mp ⟨cfg, h⟩).1
    obtain ⟨hsec, -⟩ := config.LoadConfig_ok_fields env cfg h
    obtain ⟨v, hv, hne⟩ := (os.Getenv_ne_empty_iff env "JWT_SECRET").mp hok
    have hg : os.Getenv env "JWT_SECRET" = v := by
      unfold os.Getenv
      unfold os.LookupEnv at hv
      simp [hv]
    rw [hsec, hg]
    exact ⟨hv, hne⟩

/-- C11 at an environment that has every required variable but an empty `JWT_SECRET`. -/
theorem load_config_requires_secret_witness :
    (os.LookupEnv (("JWT_SECRET", "") :: Sample.environ) "JWT_SECRET" = none ∨
        os.LookupEnv (("JWT_SECRET", "") :: Sample.environ) "JWT_SECRET" = some "") ∧
      config.LoadConfig (("JWT_SECRET", "") :: Sample.environ) =
        Except.error "JWT_SECRET environment variable is required" ∧
      (config.LoadConfig Sample.environ).toOption.map (fun cfg => cfg.JWTSecret) =
        some "s3cret" :=
  ⟨Or.inr (by decide),
    (load_config_requires_secret (("JWT_SECRET", "") :: Sample.environ)).1 (Or.inr (by decide)),
    by decide⟩

/-- C12, as the code has it: whenever `LoadConfig` succeeds, `Config.JWTExpiry` is 24 if
`JWT_EXPIRY_HOURS` is not set, and is `n` if the variable is set to a decimal
representation (an optional sign and one or more digits) of an integer `n` that fits the
type `int`, that is `-2^63 <= n < 2^63`. -/
theorem jwt_expiry_defaults_to_24 (env : os.Environ) (cfg : config.Config)
    (hok : config.LoadConfig env = Except.ok cfg) :
    (os.LookupEnv env "JWT_EXPIRY_HOURS" = none → cfg.JWTExpiry = 24) ∧
    (∀ (s : String) (n : Int), os.LookupEnv env "JWT_EXPIRY_HOURS" = some s →
      Spec.isDecimalInteger s = true → Spec.decimalValue s = n →
      -(2 ^ 63) ≤ n → n < 2 ^ 63 → cfg.JWTExpiry = n) := by
  obtain ⟨-, hexp⟩ := config.LoadConfig_ok_fields env cfg hok
  refine ⟨?_, ?_⟩
  · intro hunset
    rw [hexp]
    have h24 : strconv.Atoi "24" = (24, none) := by decide
    simp [config.getEnv, hunset, h24]
  · intro s n hset hdec hval h1 h2
    rw [hexp]
    have hg : config.getEnv env "JWT_EXPIRY_HOURS" "24" = s := by
      simp [config.getEnv, hset]
    rw [hg, strconv.Atoi_decimal s hdec (hval ▸ h1) (hval ▸ h2)]
    exact hval

/-- C12 at an environment with `JWT_EXPIRY_HOURS=-8`. -/
theorem jwt_expiry_defaults_to_24_witness :
    (config.LoadConfig (("JWT_EXPIRY_HOURS", "-8") :: Sample.environ)).toOption.map
        (fun cfg => cfg.JWTSecret) = some "s3cret" ∧
      os.LookupEnv (("JWT_EXPIRY_HOURS", "-8") :: Sample.environ) "JWT_EXPIRY_HOURS" =
        some "-8" ∧
      Spec.isDecimalInteger "-8" = true ∧ Spec.decimalValue "-8" = -8 ∧
      (∀ cfg, config.LoadConfig (("JWT_EXPIRY_HOURS", "-8") :: Sample.environ) =
        Except.ok cfg → cfg.JWTExpiry = -8) ∧
      (∀ cfg, config.LoadConfig Sample.environ = Except.ok cfg → cfg.JWTExpiry = 24) :=
  ⟨by decide, by decide, by decide, by decide,
    fun cfg hok =>
      (jwt_expiry_defaults_to_24 (("JWT_EXPIRY_HOURS", "-8") :: Sample.environ) cfg hok).2
        "-8" (-8) (by decide) (by decide) (by decide) (by decide) (by decide),
    fun cfg hok => (jwt_expiry_defaults_to_24 Sample.environ cfg hok).1 (by decide)⟩

/-- C12 as stated fails: with `JWT_EXPIRY_HOURS` set to `9223372036854775808`, the decimal
representation of the integer `2^63`, `LoadConfig` succeeds and `Config.JWTExpiry` is
`9223372036854775807`: `Atoi` returns the largest `int` with a range error, and the error
is dropped. -/
theorem jwt_expiry_out_of_range_is_clamped :
    Spec.isDecimalInteger "9223372036854775808" = true ∧
      Spec.decimalValue "9223372036854775808" = 9223372036854775808 ∧
      (config.LoadConfig
          (("JWT_EXPIRY_HOURS", "9223372036854775808") :: Sample.environ)).toOption.map
        (fun cfg => cfg.JWTExpiry) = some 9223372036854775807 ∧
      (9223372036854775807 : Int) ≠ 9223372036854775808 := by
  refine ⟨by decide, by decide, by decide, by decide⟩

/-- C13: in the route table that `SetupRoutes` builds on any engine there are 13 routes.
`GET /health` and `POST /auth/login` run their handler directly behind the middleware of
the engine.  Every other route has a chain of the form: middleware of the engine,
`AuthMiddleware`, the role check for its path, one business handler; the role check is
`RBACMiddleware(cashier, owner)` under `/sale-orders`, `RBACMiddleware(owner)` under
`/users/cashier` and nothing elsewhere (the logout route).  So no business handler other
than the health check and `Login` stands in a chain without `AuthMiddleware` in front of
it.  Five of the routes lie under `/sale-orders` and five under `/users/cashier`. -/
theorem routes_are_guarded (r : gin.Engine) :
    (Spec.registered r).length = 13 ∧
    (∀ route ∈ Spec.registered r,
      route = { Method := "GET", Path := "/health",
                Handlers := r.Handlers ++ [gin.HandlerFunc.health] } ∨
      route = { Method := "POST", Path := "/auth/login",
                Handlers := r.Handlers ++ [gin.HandlerFunc.AuthHandler_Login] } ∨
      ∃ h ∈ Spec.protectedHandlers,
        route.Handlers =
          r.Handlers ++ (gin.HandlerFunc.AuthMiddleware :: (Spec.roleCheck route.Path ++ [h]))) ∧
    ((Spec.registered r).filter (fun route => Spec.under "/sale-orders" route.Path)).length = 5 ∧
    ((Spec.registered r).filter (fun route => Spec.under "/users/cashier" route.Path)).length
      = 5 := by
  have htable : Spec.registered r =
      [ { Method := "GET", Path := "/health",
          Handlers := r.Handlers ++ [gin.HandlerFunc.health] },
        { Method := "POST", Path := "/auth/login",
          Handlers := r.Handlers ++ [gin.HandlerFunc.AuthHandler_Login] },
        { Method := "POST", Path := "/auth/logout",
          Handlers := r.Handlers ++ [gin.HandlerFunc.AuthMiddleware] ++
            [gin.HandlerFunc.AuthHandler_Logout] },
        { Method := "GET", Path := "/sale-orders",
          Handlers := r.Handlers ++ [gin.HandlerFunc.AuthMiddleware] ++
            [gin.HandlerFunc.RBACMiddleware [models.RoleCashier, models.RoleOwner]] ++
            [gin.HandlerFunc.SaleOrderHandler_GetAll] },
        { Method := "GET", Path := "/sale-orders/:id",
          Handlers := r.Handlers ++ [gin.HandlerFunc.AuthMiddleware] ++
            [gin.HandlerFunc.RBACMiddleware [models.RoleCashier, models.RoleOwner]] ++
            [gin.HandlerFunc.SaleOrderHandler_GetByID] },
        { Method := "POST", Path := "/sale-orders",
          Handlers := r.Handlers ++ [gin.HandlerFunc.AuthMiddleware] ++
            [gin.HandlerFunc.RBACMiddleware [models.RoleCashier, models.RoleOwner]] ++
            [gin.HandlerFunc.SaleOrderHandler_Create] },
        { Method := "PATCH", Path := "/sale-orders/:id",
          Handlers := r.Handlers ++ [gin.HandlerFunc.AuthMiddleware] ++
            [gin.HandlerFunc.RBACMiddleware [models.RoleCashier, models.RoleOwner]] ++
            [gin.HandlerFunc.SaleOrderHandler_Update] },
        { Method := "DELETE", Path := "/sale-orders/:id",
          Handlers := r.Handlers ++ [gin.HandlerFunc.AuthMiddleware] ++
            [gin.HandlerFunc.RBACMiddleware [models.RoleCashier, models.RoleOwner]] ++
            [gin.HandlerFunc.SaleOrderHandler_Delete] },
        { Method := "GET", Path := "/users/cashier",
          Handlers := r.Handlers ++ [gin.HandlerFunc.AuthMiddleware] ++
            [gin.HandlerFunc.RBACMiddleware [models.RoleOwner]] ++
            [gin.HandlerFunc.UserHandler_GetAllCashiers] },
        { Method := "GET", Path := "/users/cashier/:id",
          Handlers := r.Handlers ++ [gin.HandlerFunc.AuthMiddleware] ++
            [gin.HandlerFunc.RBACMiddleware [models.RoleOwner]] ++
            [gin.HandlerFunc.UserHandler_GetCashierByID] },
        { Method := "POST", Path := "/users/cashier",
          Handlers := r.Handlers ++ [gin.HandlerFunc.AuthMiddleware] ++
            [gin.HandlerFunc.RBACMiddleware [models.RoleOwner]] ++
            [gin.HandlerFunc.UserHandler_CreateCashier] },
        { Method := "PATCH", Path := "/users/cashier/:id",
          Handlers := r.Handlers ++ [gin.HandlerFunc.AuthMiddleware] ++
            [gin.HandlerFunc.RBACMiddleware [models.RoleOwner]] ++
            [gin.HandlerFunc.UserHandler_UpdateCashier] },
        { Method := "DELETE", Path := "/users/cashier/:id",
          Handlers := r.Handlers ++ [gin.HandlerFunc.AuthMiddleware] ++
            [gin.HandlerFunc.RBACMiddleware [models.RoleOwner]] ++
            [gin.HandlerFunc.UserHandler_DeleteCashier] } ] := by
    unfold Spec.registered
    have hroutes : ∀ tail : List gin.RouteInfo, (r.routes ++ tail).drop r.routes.length = tail :=
      fun tail => List.drop_left r.routes tail
    simp only [routes.SetupRoutes, gin.RouterGroup.GET, gin.RouterGroup.POST,
      gin.RouterGroup.PATCH, gin.RouterGroup.DELETE, gin.RouterGroup.handle,
      gin.RouterGroup.Group, gin.RouterGroup.Use, gin.Engine.RouterGroup,
      List.append_assoc, hroutes]
    rfl
  have hc1 : Spec.roleCheck "/auth/logout" = [] := by decide
  have hc2 : Spec.roleCheck "/sale-orders" =
      [gin.HandlerFunc.RBACMiddleware [models.RoleCashier, models.RoleOwner]] := by decide
  have hc3 : Spec.roleCheck "/sale-orders/:id" =
      [gin.HandlerFunc.RBACMiddleware [models.RoleCashier, models.RoleOwner]] := by decide
  have hc4 : Spec.roleCheck "/users/cashier" =
      [gin.HandlerFunc.RBACMiddleware [models.RoleOwner]] := by decide
  have hc5 : Spec.roleCheck "/users/cashier/:id" =
      [gin.HandlerFunc.RBACMiddleware [models.RoleOwner]] := by decide
  rw [htable]
  refine ⟨rfl, ?_, rfl, rfl⟩
  intro route hmem
  simp only [List.mem_cons, List.mem_singleton, List.not_mem_nil, or_false] at hmem
  rcases hmem with h | h | h | h | h | h | h | h | h | h | h | h | h
  · exact Or.inl h
  · exact Or.inr (Or.inl h)
  all_goals
    subst h
    refine Or.inr (Or.inr ?_)
    simp [Spec.protectedHandlers, hc1, hc2, hc3, hc4, hc5]

/-- C13 on the engine of `main`: the chain of `DELETE /users/cashier/:id`. -/
theorem routes_are_guarded_witness :
    Sample.deleteCashierRoute ∈ Spec.registered Sample.engine ∧
      (Sample.deleteCashierRoute =
          { Method := "GET", Path := "/health",
            Handlers := Sample.engine.Handlers ++ [gin.HandlerFunc.health] } ∨
        Sample.deleteCashierRoute =
          { Method := "POST", Path := "/auth/login",
            Handlers := Sample.engine.Handlers ++ [gin.HandlerFunc.AuthHandler_Login] } ∨
        ∃ h ∈ Spec.protectedHandlers,
          Sample.deleteCashierRoute.Handlers =
            Sample.engine.Handlers ++
              (gin.HandlerFunc.AuthMiddleware ::
                (Spec.roleCheck Sample.deleteCashierRoute.Path ++ [h]))) :=
  ⟨by decide, (routes_are_guarded Sample.engine).2.1 Sample.deleteCashierRoute (by decide)⟩

/-- C14, as the code has it: `Role` is a string type with two named constants and no
check that a role is one of them.  For a role `r` that is neither `owner` nor `cashier`:
`AuthMiddleware` attaches `r` like any other role when `ValidateToken` returns it, and
runs the rest of the chain; `RBACMiddleware` turns `r` down with 403 for every allow-list
made of the two constants; every `RBACMiddleware` that `SetupRoutes` puts into a chain,
on any engine, has such an allow-list and so turns `r` down; every route that
`SetupRoutes` registers under `/sale-orders` or `/users/cashier` has the chain engine
middleware, `AuthMiddleware`, such an `RBACMiddleware`, handler; for an arbitrary
allow-list `RBACMiddleware` passes `r` if and only if `r` is a member. -/
theorem unknown_role_fails_listed_role_checks (r : models.Role)
    (howner : r ≠ models.RoleOwner) (hcashier : r ≠ models.RoleCashier) :
    (∀ (jwtService : utils.JWTService) (next : Handler) (s : State) (t : String)
        (claims : utils.Claims),
      s.c.GetHeader "Authorization" = "Bearer " ++ t → ' ' ∉ t.data →
      s.TokenBlacklist.lookup t = false → jwtService.ValidateToken t = Except.ok claims →
      claims.Role = r →
      ∃ c : gin.Context,
        AuthMiddleware jwtService next s = next { TokenBlacklist := s.TokenBlacklist, c := c } ∧
        c.Get "role" = some (Any.Role r)) ∧
    (∀ (allowedRoles : List models.Role) (next : Handler) (s : State),
      (∀ a ∈ allowedRoles, a = models.RoleOwner ∨ a = models.RoleCashier) →
      s.c.Get "role" = some (Any.Role r) →
      RBACMiddleware allowedRoles next s =
        some (Spec.rejected s 403 "You don't have permission to access this resource")) ∧
    (∀ (e : gin.Engine) (route : gin.RouteInfo) (allowedRoles : List models.Role),
      route ∈ Spec.registered e →
      gin.HandlerFunc.RBACMiddleware allowedRoles ∈ route.Handlers.drop e.Handlers.length →
      (∀ a ∈ allowedRoles, a = models.RoleOwner ∨ a = models.RoleCashier) ∧
      ∀ (next : Handler) (s : State), s.c.Get "role" = some (Any.Role r) →
        RBACMiddleware allowedRoles next s =
          some (Spec.rejected s 403 "You don't have permission to access this resource")) ∧
    (∀ (e : gin.Engine) (route : gin.RouteInfo),
      route ∈ Spec.registered e →
      (Spec.under "/sale-orders" route.Path = true ∨
        Spec.under "/users/cashier" route.Path = true) →
      ∃ (allowedRoles : List models.Role) (handler : gin.HandlerFunc),
        route.Handlers = e.Handlers ++
          [gin.HandlerFunc.AuthMiddleware, gin.HandlerFunc.RBACMiddleware allowedRoles,
            handler] ∧
        ∀ (next : Handler) (s : State), s.c.Get "role" = some (Any.Role r) →
          RBACMiddleware allowedRoles next s =
            some (Spec.rejected s 403 "You don't have permission to access this resource")) ∧
    (∀ (allowedRoles : List models.Role) (s : State),
      s.c.Get "role" = some (Any.Role r) →
      ((∀ next : Handler, RBACMiddleware allowedRoles next s = next s) ↔
        r ∈ allowedRoles)) := by
  have hreject : ∀ (allowedRoles : List models.Role) (next : Handler) (s : State),
      (∀ a ∈ allowedRoles, a = models.RoleOwner ∨ a = models.RoleCashier) →
      s.c.Get "role" = some (Any.Role r) →
      RBACMiddleware allowedRoles next s =
        some (Spec.rejected s 403 "You don't have permission to access this resource") := by
    intro allowedRoles next s hallowed hrole
    have hnot : r ∉ allowedRoles := by
      intro hm
      rcases hallowed r hm with e | e
      · exact howner e
      · exact hcashier e
    simp only [RBACMiddleware, hrole]
    exact RBACMiddleware_range_not_mem r next s allowedRoles hnot
  have hlisted : ∀ route ∈ Spec.registered { Handlers := [], routes := [] },
      ∀ handler ∈ route.Handlers, Spec.listedRolesOnly handler = true := by decide
  have hguarded : ∀ route ∈ Spec.registered { Handlers := [], routes := [] },
      (Spec.under "/sale-orders" route.Path || Spec.under "/users/cashier" route.Path) = true →
      Spec.roleGuarded route.Handlers = true := by decide
  refine ⟨?_, hreject, ?_, ?_, ?_⟩
  · intro jwtService next s t claims hheader htoken hfresh hvalid hrole
    refine ⟨(((s.c.Set "user_id" (Any.uint claims.UserID)).Set "username"
      (Any.string claims.Username)).Set "role" (Any.Role claims.Role)).Set "token"
      (Any.string t), ?_, ?_⟩
    · rw [AuthMiddleware_bearer jwtService next s t hheader htoken]
      simp only [hfresh, hvalid]
      rfl
    · rw [← hrole]
      simp [gin.Context.Get, gin.Context.Set, List.lookup]
  · intro e route allowedRoles hroute hmem
    rw [routes.registered_eq_map e] at hroute
    obtain ⟨base, hbase, rfl⟩ := List.mem_map.mp hroute
    simp only [List.drop_left] at hmem
    have hall := routes.listedRolesOnly_spec allowedRoles (hlisted base hbase _ hmem)
    exact ⟨hall, fun next s hrole => hreject allowedRoles next s hall hrole⟩
  · intro e route hroute hpath
    rw [routes.registered_eq_map e] at hroute
    obtain ⟨base, hbase, rfl⟩ := List.mem_map.mp hroute
    have hcond : (Spec.under "/sale-orders" base.Path ||
        Spec.under "/users/cashier" base.Path) = true := by
      rcases hpath with h | h
      · simp only [] at h
        simp [h]
      · simp only [] at h
        simp [h]
    obtain ⟨allowedRoles, handler, hchain, hall⟩ :=
      routes.roleGuarded_shape _ (hguarded base hbase hcond)
    refine ⟨allowedRoles, handler, ?_, fun next s hrole => hreject allowedRoles next s hall hrole⟩
    simp only [hchain]
  · intro allowedRoles s hrole
    constructor
    · intro hpass
      by_contra hm
      have h1 := hpass (fun _ => none)
      simp only [RBACMiddleware, hrole] at h1
      rw [RBACMiddleware_range_not_mem r _ s allowedRoles hm] at h1
      exact Option.noConfusion h1
    · intro hm next
      simp only [RBACMiddleware, hrole]
      exact RBACMiddleware_range_mem r next s allowedRoles hm

/-- C14 at the role `admin` on the route `DELETE /users/cashier/:id` of the engine of
`main`: the role check of the route answers 403 and the handler behind it does not run;
the same holds in front of the role check of the sale-order routes. -/
theorem unknown_role_fails_listed_role_checks_witness :
    ("admin" : models.Role) ≠ models.RoleOwner ∧ ("admin" : models.Role) ≠ models.RoleCashier ∧
      Sample.deleteCashierRoute ∈ Spec.registered Sample.engine ∧
      Spec.under "/users/cashier" Sample.deleteCashierRoute.Path = true ∧
      (∃ (allowedRoles : List models.Role) (handler : gin.HandlerFunc),
        Sample.deleteCashierRoute.Handlers = Sample.engine.Handlers ++
          [gin.HandlerFunc.AuthMiddleware, gin.HandlerFunc.RBACMiddleware allowedRoles,
            handler] ∧
        ∀ (next : Handler) (s : State), s.c.Get "role" = some (Any.Role "admin") →
          RBACMiddleware allowedRoles next s =
            some (Spec.rejected s 403 "You don't have permission to access this resource")) ∧
      (∀ a ∈ [models.RoleCashier, models.RoleOwner],
        a = models.RoleOwner ∨ a = models.RoleCashier) ∧
      (Sample.state [] "" [("role", Any.Role "admin")]).c.Get "role" =
        some (Any.Role "admin") ∧
      RBACMiddleware [models.RoleCashier, models.RoleOwner] some
          (Sample.state [] "" [("role", Any.Role "admin")]) =
        some (Spec.rejected (Sample.state [] "" [("role", Any.Role "admin")]) 403
          "You don't have permission to access this resource") :=
  ⟨by decide, by decide, by decide, by decide,
    (unknown_role_fails_listed_role_checks "admin" (by decide) (by decide)).2.2.2.1
      Sample.engine Sample.deleteCashierRoute (by decide) (Or.inr (by decide)),
    by decide, by decide,
    (unknown_role_fails_listed_role_checks "admin" (by decide) (by decide)).2.1
      [models.RoleCashier, models.RoleOwner] some
      (Sample.state [] "" [("role", Any.Role "admin")]) (by decide) (by decide)⟩

/-- C14 as stated fails: the role `admin` is neither `owner` nor `cashier`, yet
`RBACMiddleware` with the allow-list `admin` passes a request that carries it: the rest
of the chain, here `Logout`, runs and answers 200. -/
theorem unknown_role_passes_matching_allow_list :
    ("admin" : models.Role) ≠ models.RoleOwner ∧ ("admin" : models.Role) ≠ models.RoleCashier ∧
      RBACMiddleware ["admin"] some (Sample.state [] "" [("role", Any.Role "admin")]) =
        some (Sample.state [] "" [("role", Any.Role "admin")]) ∧
      (RBACMiddleware ["admin"] (handlers.AuthHandler.Logout Sample.authHandler)
          (Sample.state [] "" [("role", Any.Role "admin"), ("token", Any.string "tok")])).map
          (fun after => after.c.Written) =
        some [(200, { Code := 200, Status := "success", Message := "Logout successful",
                      Data := Any.nil })] := by
  refine ⟨by decide, by decide, by decide, by decide⟩

/-- C15, as the code has it: `LoadConfig` never fails because of `JWT_EXPIRY_HOURS`: with
the five required variables set to values that are not empty it succeeds whatever that
variable holds.  If the variable is set to a string that is not a decimal integer, and
the digits at the front of the string (behind an optional sign) do not denote a number
above `2^64 - 1`, then `Config.JWTExpiry` is 0: the parse error is dropped and the
default 24 is not applied.  The empty string, `24h` and `1.5` are such strings. -/
theorem jwt_expiry_parse_error_gives_zero (env : os.Environ)
    (hrequired : ∀ key ∈ Spec.requiredVariables, Spec.IsSetNonEmpty env key) :
    (∃ cfg, config.LoadConfig env = Except.ok cfg) ∧
    (∀ (s : String) (cfg : config.Config),
      os.LookupEnv env "JWT_EXPIRY_HOURS" = some s →
      Spec.isDecimalInteger s = false →
      Spec.digitsValue (Spec.leadingDigits s) ≤ 2 ^ 64 - 1 →
      config.LoadConfig env = Except.ok cfg → cfg.JWTExpiry = 0) ∧
    (∀ s ∈ ["", "24h", "1.5"],
      Spec.isDecimalInteger s = false ∧
        Spec.digitsValue (Spec.leadingDigits s) ≤ 2 ^ 64 - 1) := by
  refine ⟨?_, ?_, by decide⟩
  · rw [config.LoadConfig_ok_iff]
    simpa only [Spec.requiredVariables, List.mem_cons, List.mem_singleton, List.not_mem_nil,
      or_false, forall_eq_or_imp, forall_eq, os.Getenv_ne_empty_iff] using hrequired
  · intro s cfg hset hdec hv hok
    obtain ⟨-, hexp⟩ := config.LoadConfig_ok_fields env cfg hok
    have hg : config.getEnv env "JWT_EXPIRY_HOURS" "24" = s := by
      simp [config.getEnv, hset]
    rw [hexp, hg, strconv.Atoi_not_decimal s hdec hv]

/-- C15 at an environment with `JWT_EXPIRY_HOURS=24h`. -/
theorem jwt_expiry_parse_error_gives_zero_witness :
    (∀ key ∈ Spec.requiredVariables,
        Spec.IsSetNonEmpty (("JWT_EXPIRY_HOURS", "24h") :: Sample.environ) key) ∧
      (∃ cfg, config.LoadConfig (("JWT_EXPIRY_HOURS", "24h") :: Sample.environ) =
        Except.ok cfg) ∧
      (config.LoadConfig (("JWT_EXPIRY_HOURS", "24h") :: Sample.environ)).toOption.map
        (fun cfg => cfg.JWTExpiry) = some 0 :=
  have hrequired : ∀ key ∈ Spec.requiredVariables,
      Spec.IsSetNonEmpty (("JWT_EXPIRY_HOURS", "24h") :: Sample.environ) key := by
    intro key hkey
    simp only [Spec.requiredVariables, List.mem_cons, List.mem_singleton, List.not_mem_nil,
      or_false] at hkey
    rcases hkey with rfl | rfl | rfl | rfl | rfl
    · exact ⟨"s3cret", by decide, by decide⟩
    · exact ⟨"pw", by decide, by decide⟩
    · exact ⟨"pos", by decide, by decide⟩
    · exact ⟨"db", by decide, by decide⟩
    · exact ⟨"posdb", by decide, by decide⟩
  ⟨hrequired,
    (jwt_expiry_parse_error_gives_zero (("JWT_EXPIRY_HOURS", "24h") :: Sample.environ)
      hrequired).1,
    by decide⟩

/-- C15 as stated fails: `99999999999999999999x` is not a decimal integer, yet with
`JWT_EXPIRY_HOURS` set to it `LoadConfig` succeeds with `Config.JWTExpiry` equal to
`9223372036854775807`, not 0: `ParseUint` reports the range error at the twentieth digit,
before it reaches the `x`. -/
theorem jwt_expiry_parse_error_can_give_max_int :
    Spec.isDecimalInteger "99999999999999999999x" = false ∧
      strconv.Atoi "99999999999999999999x" =
        (9223372036854775807, some strconv.NumError.ErrRange) ∧
      (config.LoadConfig
          (("JWT_EXPIRY_HOURS", "99999999999999999999x") :: Sample.environ)).toOption.map
        (fun cfg => cfg.JWTExpiry) = some 9223372036854775807 ∧
      (9223372036854775807 : Int) ≠ 0 := by
  refine ⟨by decide, by decide, by decide, by decide⟩

/-- C16: `CalculateTotalPages` is ceiling division.  For every limit that is zero or
negative it returns 0; for every `totalItems >= 0` and `limit > 0` in the range of `int`
it returns the least `n >= 0` with `n * limit >= totalItems`, which is 0 exactly when
`totalItems` is 0 and satisfies `(n - 1) * limit < totalItems` when `n > 0`; and for all
arguments it returns a value, it never divides by zero. -/
theorem total_pages_is_ceiling_division (totalItems limit : Int) :
    (limit ≤ 0 → utils.CalculateTotalPages totalItems limit = some 0) ∧
    (0 ≤ totalItems → totalItems < 2 ^ 63 → 0 < limit → limit < 2 ^ 63 →
      ∃ n, utils.CalculateTotalPages totalItems limit = some n ∧
        0 ≤ n ∧ totalItems ≤ n * limit ∧
        (∀ m, 0 ≤ m → totalItems ≤ m * limit → n ≤ m) ∧
        (n = 0 ↔ totalItems = 0) ∧
        (0 < n → (n - 1) * limit < totalItems)) ∧
    (∃ n, utils.CalculateTotalPages totalItems limit = some n) := by
  refine ⟨?_, ?_, ?_⟩
  · intro h
    simp [utils.CalculateTotalPages, h]
  · intro ht0 ht1 hl0 hl1
    have hl : ¬ limit ≤ 0 := by omega
    have hne : limit ≠ 0 := by omega
    have hw : Go.int64 totalItems = totalItems := Go.int64_of_range _ (by omega) ht1
    have hdiv : Int.tdiv totalItems limit = totalItems / limit :=
      Int.tdiv_eq_ediv ht0 (by omega)
    have hmod : Int.tmod totalItems limit = totalItems % limit :=
      Int.tmod_eq_emod ht0 (by omega)
    have hq0 : 0 ≤ totalItems / limit := Int.ediv_nonneg ht0 (by omega)
    have hr0 : 0 ≤ totalItems % limit := Int.emod_nonneg _ hne
    have hrl : totalItems % limit < limit := Int.emod_lt_of_pos _ hl0
    have hsum : limit * (totalItems / limit) + totalItems % limit = totalItems :=
      Int.ediv_add_emod totalItems limit
    have hqle : totalItems / limit ≤ totalItems := by
      by_contra hc
      have : totalItems + 1 ≤ totalItems / limit := by omega
      nlinarith
    have hwq : Go.int64 (totalItems / limit) = totalItems / limit :=
      Go.int64_of_range _ (by omega) (by omega)
    simp only [utils.CalculateTotalPages, hl, if_false, hw, Go.div, Go.mod, hne, hdiv, hmod,
      hwq]
    by_cases hr : totalItems % limit > 0
    · have hlt : totalItems / limit < totalItems := by
        by_contra hc
        have : totalItems / limit = totalItems := by omega
        nlinarith
      have hw1 : Go.int64 (totalItems / limit + 1) = totalItems / limit + 1 :=
        Go.int64_of_range _ (by omega) (by omega)
      simp only [hr, if_true, hw1]
      refine ⟨_, rfl, by omega, by nlinarith, ?_, ?_, ?_⟩
      · intro m hm0 hm
        by_contra hc
        have : m ≤ totalItems / limit := by omega
        nlinarith
      · constructor
        · intro h; omega
        · intro h
          rw [h] at hr
          simp at hr
      · intro _
        have : totalItems / limit + 1 - 1 = totalItems / limit := by omega
        rw [this]
        nlinarith
    · have hr' : totalItems % limit = 0 := by omega
      simp only [hr, if_false]
      refine ⟨_, rfl, hq0, by nlinarith, ?_, ?_, ?_⟩
      · intro m hm0 hm
        by_contra hc
        have : m + 1 ≤ totalItems / limit := by omega
        nlinarith
      · constructor
        · intro h
          rw [h] at hsum
          omega
        · intro h
          rw [h]
          simp
      · intro hpos
        nlinarith
  · by_cases hl : limit ≤ 0
    · exact ⟨0, by simp [utils.CalculateTotalPages, hl]⟩
    · have hne : limit ≠ 0 := by omega
      simp only [utils.CalculateTotalPages, hl, if_false, Go.div, Go.mod, hne]
      exact ⟨_, rfl⟩

/-- C16 at 10 items in pages of 3: four pages. -/
theorem total_pages_is_ceiling_division_witness :
    (0 : Int) ≤ 10 ∧ (10 : Int) < 2 ^ 63 ∧ (0 : Int) < 3 ∧ (3 : Int) < 2 ^ 63 ∧
      (∃ n, utils.CalculateTotalPages 10 3 = some n ∧
        0 ≤ n ∧ 10 ≤ n * 3 ∧
        (∀ m : Int, 0 ≤ m → 10 ≤ m * 3 → n ≤ m) ∧
        (n = 0 ↔ (10 : Int) = 0) ∧
        (0 < n → (n - 1) * 3 < 10)) ∧
      utils.CalculateTotalPages 10 3 = some 4 ∧
      utils.CalculateTotalPages 10 0 = some 0 :=
  ⟨by decide, by decide, by decide, by decide,
    (total_pages_is_ceiling_division 10 3).2.1 (by decide) (by decide) (by decide) (by decide),
    by decide, by decide⟩

/-- C17: `GetPagination` always returns bounded parameters.  For every query string the
result has `Page >= 1` and `1 <= Limit <= 100`.  `Page` is 1 when `page` is absent, when
`Atoi` gives an error for it (no numeral, or a numeral outside the range of `int`) and
when the parsed value is below 1, and is the parsed value otherwise.  `Limit` is 10 when
`limit` is absent, when `Atoi` gives an error for it and when the parsed value is below
1, is 100 when the parsed value exceeds 100, and is the parsed value otherwise. -/
theorem pagination_is_bounded (query : gin.Query) :
    1 ≤ (utils.GetPagination query).Page ∧
    1 ≤ (utils.GetPagination query).Limit ∧ (utils.GetPagination query).Limit ≤ 100 ∧
    (query.lookup "page" = none → (utils.GetPagination query).Page = 1) ∧
    (∀ value, query.lookup "page" = some value →
      ((strconv.Atoi value).2 ≠ none → (utils.GetPagination query).Page = 1) ∧
      ((strconv.Atoi value).1 < 1 → (utils.GetPagination query).Page = 1) ∧
      ((strconv.Atoi value).2 = none → 1 ≤ (strconv.Atoi value).1 →
        (utils.GetPagination query).Page = (strconv.Atoi value).1)) ∧
    (query.lookup "limit" = none → (utils.GetPagination query).Limit = 10) ∧
    (∀ value, query.lookup "limit" = some value →
      ((strconv.Atoi value).2 ≠ none → (utils.GetPagination query).Limit = 10) ∧
      ((strconv.Atoi value).1 < 1 → (utils.GetPagination query).Limit = 10) ∧
      ((strconv.Atoi value).2 = none → 100 < (strconv.Atoi value).1 →
        (utils.GetPagination query).Limit = 100) ∧
      ((strconv.Atoi value).2 = none → 1 ≤ (strconv.Atoi value).1 →
        (strconv.Atoi value).1 ≤ 100 →
        (utils.GetPagination query).Limit = (strconv.Atoi value).1)) := by
  have hpage : (utils.GetPagination query).Page =
      if (strconv.Atoi (gin.DefaultQuery query "page" "1")).2 ≠ none ∨
          (strconv.Atoi (gin.DefaultQuery query "page" "1")).1 < 1 then 1
      else (strconv.Atoi (gin.DefaultQuery query "page" "1")).1 := rfl
  have hlimit : (utils.GetPagination query).Limit =
      if (if (strconv.Atoi (gin.DefaultQuery query "limit" "10")).2 ≠ none ∨
            (strconv.Atoi (gin.DefaultQuery query "limit" "10")).1 < 1 then (10 : Int)
          else (strconv.Atoi (gin.DefaultQuery query "limit" "10")).1) > 100 then 100
      else (if (strconv.Atoi (gin.DefaultQuery query "limit" "10")).2 ≠ none ∨
            (strconv.Atoi (gin.DefaultQuery query "limit" "10")).1 < 1 then (10 : Int)
          else (strconv.Atoi (gin.DefaultQuery query "limit" "10")).1) := rfl
  have h1 : strconv.Atoi "1" = (1, none) := by decide
  have h10 : strconv.Atoi "10" = (10, none) := by decide
  refine ⟨?_, ?_, ?_, ?_, ?_, ?_, ?_⟩
  · rw [hpage]
    split <;> omega
  · rw [hlimit]
    split <;> split <;> omega
  · rw [hlimit]
    split <;> split <;> omega
  · intro h
    rw [hpage]
    simp [gin.DefaultQuery, h, h1]
  · intro value h
    have hq : gin.DefaultQuery query "page" "1" = value := by simp [gin.DefaultQuery, h]
    rw [hpage, hq]
    refine ⟨?_, ?_, ?_⟩
    · intro he
      simp [he]
    · intro hv
      simp [hv]
    · intro he hv
      have : ¬ (strconv.Atoi value).1 < 1 := by omega
      simp [he, this]
  · intro h
    rw [hlimit]
    simp [gin.DefaultQuery, h, h10]
  · intro value h
    have hq : gin.DefaultQuery query "limit" "10" = value := by simp [gin.DefaultQuery, h]
    rw [hlimit, hq]
    refine ⟨?_, ?_, ?_, ?_⟩
    · intro he
      simp [he]
    · intro hv
      simp [hv]
    · intro he hv
      have h1' : ¬ (strconv.Atoi value).1 < 1 := by omega
      simp [he, h1', hv]
    · intro he hv hv2
      have h1' : ¬ (strconv.Atoi value).1 < 1 := by omega
      have h2' : ¬ (strconv.Atoi value).1 > 100 := by omega
      simp [he, h1', h2']

/-- C17 at the query `page=3&limit=500`: page 3 and the limit capped at 100; a limit that
is too large for an `int` falls back to 10. -/
theorem pagination_is_bounded_witness :
    List.lookup "limit" [("page", "3"), ("limit", "500")] = some "500" ∧
      (strconv.Atoi "500").2 = none ∧ 100 < (strconv.Atoi "500").1 ∧
      (utils.GetPagination [("page", "3"), ("limit", "500")]).Limit = 100 ∧
      utils.GetPagination [("page", "3"), ("limit", "500")] = { Page := 3, Limit := 100 } ∧
      utils.GetPagination [("page", "0"), ("limit", "99999999999999999999")] =
        { Page := 1, Limit := 10 } :=
  ⟨by decide, by decide, by decide,
    ((pagination_is_bounded [("page", "3"), ("limit", "500")]).2.2.2.2.2.2 "500"
      (by decide)).2.2.1 (by decide) (by decide),
    by decide, by decide⟩

end PosApi
